import Mathlib

/-!
Verification development for a one-way calendar reconciliation engine
(source: a Garoon schedule service; destination: a Google calendar).

The definitions below are a shallow embedding of the repository's current
engine: `SyncService` (sync logic with batching and orphan deletion),
`SyncDatabase` (JSON-file state store with capped activity log),
`GoogleCalendarClient` (destination adapter), `withRetry` /
`isRetryableError` (retry policy) and the multi-target merge of
`GaroonClient.getScheduleFromMultipleTargets`.

Modelling conventions:
- JavaScript strings are Lean `String`s; the string operations the code
  uses (`split`, `startsWith`, `includes`, `toLowerCase`, `<`) are
  re-implemented over `List Char` so that they compute by kernel
  reduction.
- Optional JS string fields that the code tests for truthiness
  (`eventMenu`, `notes`, `location`, `timeZone`, …) are plain `String`s
  with `""` playing the role of `undefined`/absent.
- The destination service is modelled as an association list of events
  keyed by event id.  Its behaviour at the interface boundary follows the
  spec of the external API: reading or deleting an id that is not present
  reports a not-found ("404") failure, creation assigns a fresh id.
- Asynchronous batches (`Promise.allSettled` over a batch of 5) are
  sequentialised: each event's pipeline only reads and writes its own
  sync record, so for distinct event ids the sequential order realises
  the cooperative interleaving.
- Wall-clock timestamps (`new Date().toISOString()`) are passed in as an
  explicit `now` argument; the age-based cleanup receives its cutoff
  timestamp the same way.
- The per-run mutable counters, the persisted store and the destination
  calendar state are packaged in a `World`; `destDeleteCalls` is
  instrumentation counting the underlying destination delete API calls.
-/

namespace CalSync

/-- Boolean test that the first character list occurs at the start of the second
(mirrors JS `String.prototype.startsWith`). -/
def charsLead : List Char → List Char → Bool
  | [], _ => true
  | _ :: _, [] => false
  | a :: as, b :: bs => a == b && charsLead as bs

/-- Boolean test that the first character list occurs contiguously somewhere in
the second (mirrors JS `String.prototype.includes`). -/
def charsContain (pat : List Char) : List Char → Bool
  | [] => pat.isEmpty
  | b :: bs => charsLead pat (b :: bs) || charsContain pat bs

/-- JS `s.startsWith(pat)`. -/
def strStartsWith (s pat : String) : Bool := charsLead pat.data s.data

/-- JS `s.includes(pat)`. -/
def strContains (s pat : String) : Bool := charsContain pat.data s.data

/-- JS `s.toLowerCase()` (ASCII case folding, which is all the retry
classifier's patterns need). -/
def strToLower (s : String) : String := String.mk (s.data.map Char.toLower)

/-- Lexicographic strict order on character lists, mirroring JS `<` on
strings. -/
def charsLt : List Char → List Char → Bool
  | [], [] => false
  | [], _ :: _ => true
  | _ :: _, [] => false
  | a :: as, b :: bs => if a == b then charsLt as bs else decide (a < b)

/-- JS `a < b` on strings. -/
def strLt (a b : String) : Bool := charsLt a.data b.data

/-- Helper for `strSplitOnChar`: accumulates the current field in reverse. -/
def splitOnCharAux (c : Char) : List Char → List Char → List (List Char)
  | [], acc => [acc.reverse]
  | x :: xs, acc =>
    if x == c then acc.reverse :: splitOnCharAux c xs []
    else splitOnCharAux c xs (x :: acc)

/-- JS `s.split(c)` for a single-character separator (the code only ever
splits on `'T'` and `'-'`). -/
def strSplitOnChar (c : Char) (s : String) : List String :=
  (splitOnCharAux c s.data []).map String.mk

/-- JS `Array.prototype.join(sep)`. -/
def joinSep (sep : String) : List String → String
  | [] => ""
  | [s] => s
  | s :: rest => s ++ sep ++ joinSep sep rest

/-- JS `s || dflt` for strings: the empty string is falsy. -/
def jsOr (s dflt : String) : String := if s == "" then dflt else s

/-- Parses a non-empty all-digit character list as a natural number. -/
def digitsToNatAux : List Char → Nat → Option Nat
  | [], acc => some acc
  | c :: cs, acc =>
    if c.isDigit then digitsToNatAux cs (acc * 10 + (c.toNat - '0'.toNat))
    else none

/-- Parses a non-empty all-digit character list as a natural number. -/
def digitsToNat (l : List Char) : Option Nat :=
  if l.isEmpty then none else digitsToNatAux l 0

/-- Gregorian leap-year predicate, as used by JS `Date`. -/
def isLeapYear (y : Nat) : Bool :=
  (y % 4 == 0 && y % 100 != 0) || y % 400 == 0

/-- Number of days in the given month of the given year. -/
def daysInMonth (y m : Nat) : Nat :=
  if m == 2 then (if isLeapYear y then 29 else 28)
  else if m == 4 || m == 6 || m == 9 || m == 11 then 30
  else 31

/-- Calendar date. -/
structure Ymd where
  year : Nat
  month : Nat
  day : Nat
deriving DecidableEq

/-- Parses a `YYYY-MM-DD` string into a calendar date; `none` models the
"Invalid Date" produced by `new Date(...)` on input it cannot interpret. -/
def parseYmd (s : String) : Option Ymd :=
  match strSplitOnChar '-' s with
  | [ys, ms, ds] =>
    match digitsToNat ys.data, digitsToNat ms.data, digitsToNat ds.data with
    | some y, some m, some d =>
      if 1 ≤ m ∧ m ≤ 12 ∧ 1 ≤ d ∧ d ≤ daysInMonth y m then some ⟨y, m, d⟩ else none
    | _, _, _ => none
  | _ => none

/-- The next calendar day (what `d.setDate(d.getDate() + 1)` computes on a
valid date, in any host timezone). -/
def addOneDay (d : Ymd) : Ymd :=
  if d.day < daysInMonth d.year d.month then ⟨d.year, d.month, d.day + 1⟩
  else if d.month < 12 then ⟨d.year, d.month + 1, 1⟩
  else ⟨d.year + 1, 1, 1⟩

/-- Zero-pads the decimal representation of `n` to `width` characters. -/
def padNum (width n : Nat) : String :=
  let s := toString n
  String.mk (List.replicate (width - s.length) '0') ++ s

/-- Formats a calendar date as `YYYY-MM-DD` (the date part of
`Date.prototype.toISOString`). -/
def formatYmd (d : Ymd) : String :=
  padNum 4 d.year ++ "-" ++ padNum 2 d.month ++ "-" ++ padNum 2 d.day

/-! ## Data model: source events (src/types/garoon.ts) -/

/-- Garoon event type tag. -/
inductive GaroonEventType where
  | REGULAR
  | REPEATING
  | ALL_DAY
deriving DecidableEq

/-- Garoon event boundary: an ISO datetime string plus a timezone name
(`""` when the source omitted one). -/
structure GaroonDateTime where
  dateTime : String
  timeZone : String
deriving DecidableEq

/-- Garoon attendee; `type` is one of `"USER"`, `"ORGANIZATION"`,
`"FACILITY"`. -/
structure GaroonAttendee where
  id : String
  type : String
  name : String
deriving DecidableEq

/-- Canonical source event (GaroonEvent in src/types/garoon.ts). Optional
string fields use `""` for absent. -/
structure GaroonEvent where
  id : String
  eventMenu : String
  subject : String
  start : GaroonDateTime
  end_ : GaroonDateTime
  isAllDay : Bool
  notes : String
  attendees : List GaroonAttendee
  visibilityType : String
  eventType : GaroonEventType
  updatedAt : String
  createdAt : String
  location : String
deriving DecidableEq

/-! ## Data model: destination events (src/types/google.ts) -/

/-- Destination event boundary: either a date-only (all-day) bound or a
timestamp with timezone. -/
inductive GoogleEventTime where
  | date (date : String)
  | dateTime (dateTime timeZone : String)
deriving DecidableEq

/-- Canonical destination event.  The two extended private properties
`extendedProperties.private.garoonEventId` / `garoonUpdatedAt` are
flattened into the two trailing fields. -/
structure GoogleEvent where
  id : Option String
  summary : String
  description : String
  location : String
  start : GoogleEventTime
  end_ : GoogleEventTime
  visibility : String
  garoonEventId : String
  garoonUpdatedAt : String
deriving DecidableEq

/-! ## Sync state store (src/unnamed/part_003, the JSON-file SyncDatabase) -/

/-- Persisted sync record (`SyncedEventInfo`). -/
structure SyncedEventInfo where
  garoonEventId : String
  googleEventId : String
  lastSynced : String
  garoonUpdatedAt : String
deriving DecidableEq

/-- Activity log entry (`SyncLogEntry`). -/
structure SyncLogEntry where
  id : Nat
  timestamp : String
  action : String
  garoon_event_id : Option String
  google_event_id : Option String
  details : Option String
deriving DecidableEq

/-- Persisted store contents (`SyncData`): the `events` record keyed by
`garoonEventId` is modelled as its entry list in insertion order. -/
structure SyncData where
  events : List SyncedEventInfo
  logs : List SyncLogEntry
  lastLogId : Nat
deriving DecidableEq

/-- `SyncDatabase.getSyncInfo`: point lookup by source event id. -/
def getSyncInfo (db : SyncData) (garoonEventId : String) : Option SyncedEventInfo :=
  db.events.find? (fun r => r.garoonEventId == garoonEventId)

/-- Record-assignment semantics of `this.data.events[k] = v`: replace the
entry at an existing key in place, otherwise append. -/
def upsertEvents (r : SyncedEventInfo) : List SyncedEventInfo → List SyncedEventInfo
  | [] => [r]
  | x :: xs => if x.garoonEventId == r.garoonEventId then r :: xs else x :: upsertEvents r xs

/-- `SyncDatabase.saveSyncInfo`: idempotent upsert with `lastSynced := now`. -/
def saveSyncInfo (db : SyncData) (garoonEventId googleEventId garoonUpdatedAt now : String) :
    SyncData :=
  { db with events := upsertEvents ⟨garoonEventId, googleEventId, now, garoonUpdatedAt⟩ db.events }

/-- `SyncDatabase.deleteSyncInfo`: delete by source event id. -/
def deleteSyncInfo (db : SyncData) (garoonEventId : String) : SyncData :=
  { db with events := db.events.eraseP (fun r => r.garoonEventId == garoonEventId) }

/-- `SyncDatabase.deleteSyncInfoByGoogleEventId`: deletes the first entry
whose `googleEventId` matches (the JS loop `break`s after one deletion). -/
def deleteSyncInfoByGoogleEventId (db : SyncData) (googleEventId : String) : SyncData :=
  { db with events := db.events.eraseP (fun r => r.googleEventId == googleEventId) }

/-- `SyncDatabase.getAllSyncedEvents`: full enumeration in insertion order. -/
def getAllSyncedEvents (db : SyncData) : List SyncedEventInfo := db.events

/-- JS `x || null` on an optional string argument. -/
def nullIfEmpty : Option String → Option String
  | some s => if s == "" then none else some s
  | none => none

/-- `SyncDatabase.logSync`: appends one entry; when the log exceeds 1000
entries only the newest 500 are kept (`logs.slice(-500)`). -/
def logSync (db : SyncData) (now action : String)
    (garoonEventId googleEventId details : Option String) : SyncData :=
  let entry : SyncLogEntry :=
    ⟨db.lastLogId + 1, now, action, nullIfEmpty garoonEventId, nullIfEmpty googleEventId,
      nullIfEmpty details⟩
  let logs := db.logs ++ [entry]
  let logs := if logs.length > 1000 then logs.drop (logs.length - 500) else logs
  { db with logs := logs, lastLogId := db.lastLogId + 1 }

/-- `SyncDatabase.cleanupOldSyncInfo`: drops records whose `lastSynced` is
lexicographically below the cutoff timestamp. -/
def cleanupOldSyncInfo (db : SyncData) (cutoff : String) : SyncData :=
  { db with events := db.events.filter (fun r => !(strLt r.lastSynced cutoff)) }

/-! ## Destination calendar and adapter (src/google/calendar.ts) -/

/-- Destination calendar state: stored events keyed by id, plus the
counter from which the service mints fresh ids. -/
structure GoogleCalendar where
  events : List (String × GoogleEvent)
  fresh : Nat
deriving DecidableEq

/-- Identity the destination assigns to the `fresh`-th created event. -/
def freshEventId (n : Nat) : String := "gcal-" ++ toString n

/-- Message with which the destination API reports an operation on an id
that does not exist (404-equivalent). -/
def googleNotFoundMessage : String := "404: Resource has been deleted"

/-- Raw destination read: `events.get`; absent ids report not-found via
`none` at this layer (the client turns the API 404 into `null`). -/
def apiGetEvent (cal : GoogleCalendar) (eventId : String) : Option GoogleEvent :=
  (cal.events.find? (fun p => p.1 == eventId)).map (·.2)

/-- Raw destination create: `events.insert` assigns a fresh id. -/
def apiInsertEvent (cal : GoogleCalendar) (ev : GoogleEvent) : String × GoogleCalendar :=
  let eid := freshEventId cal.fresh
  (eid, { events := cal.events ++ [(eid, { ev with id := some eid })], fresh := cal.fresh + 1 })

/-- Raw destination update: `events.update`; not-found on an absent id. -/
def apiUpdateEvent (cal : GoogleCalendar) (eventId : String) (ev : GoogleEvent) :
    Except String GoogleCalendar :=
  if cal.events.any (fun p => p.1 == eventId) then
    .ok { cal with events := cal.events.map (fun p => if p.1 == eventId then (eventId, ev) else p) }
  else .error googleNotFoundMessage

/-- Raw destination delete: `events.delete`; not-found on an absent id. -/
def apiDeleteEvent (cal : GoogleCalendar) (eventId : String) : Except String GoogleCalendar :=
  if cal.events.any (fun p => p.1 == eventId) then
    .ok { cal with events := cal.events.filter (fun p => !(p.1 == eventId)) }
  else .error googleNotFoundMessage

/-! ## Retry policy (src/common/retry.ts) -/

/-- Default classifier `isRetryableError`, restricted to the message-based
checks (the model's failures carry only a message, the `error.code` branch
repeats the `ECONN...` patterns already matched on the message). -/
def isRetryableError (message : String) : Bool :=
  let m := strToLower message
  strContains m "network" || strContains m "timeout" || strContains m "econnreset" ||
    strContains m "econnrefused" || strContains m "socket" ||
    strContains m "429" || strContains m "rate limit" ||
    strContains m "500" || strContains m "502" || strContains m "503" || strContains m "504"

/-- Loop body of `withRetry`: `fn attempt` is the outcome of the numbered
attempt; the fuel is the number of retries still permitted.  Returns the
final outcome and the total number of attempts made. -/
def retryLoop (fn : Nat → Except ε α) (shouldRetry : ε → Bool) :
    Nat → Nat → Except ε α × Nat
  | 0, attempt => (fn attempt, attempt + 1)
  | r + 1, attempt =>
    match fn attempt with
    | .ok x => (.ok x, attempt + 1)
    | .error e =>
      if shouldRetry e then retryLoop fn shouldRetry r (attempt + 1)
      else (.error e, attempt + 1)

/-- `withRetry(fn, {maxRetries, shouldRetry})`: result plus the number of
times the operation was invoked.  Backoff delays are timing-only and are
not modelled. -/
def withRetry (fn : Nat → Except ε α) (shouldRetry : ε → Bool) (maxRetries : Nat) :
    Except ε α × Nat :=
  retryLoop fn shouldRetry maxRetries 0

/-- Wraps an error message with a Japanese context label, as the client's
catch blocks do with `new Error(label + error.message)`. -/
def wrapError (pre : String) : Except String α → Except String α
  | .ok x => .ok x
  | .error m => .error (pre ++ m)

/-- `GoogleCalendarClient.createEvent` (wrapped in `withRetry` with the
default options, so `maxRetries = 3`). -/
def createEventClient (cal : GoogleCalendar) (ev : GoogleEvent) :
    Except String (String × GoogleCalendar) × Nat :=
  withRetry (fun _ => Except.ok (apiInsertEvent cal ev)) isRetryableError 3

/-- `GoogleCalendarClient.updateEvent` (wrapped in `withRetry`). -/
def updateEventClient (cal : GoogleCalendar) (eventId : String) (ev : GoogleEvent) :
    Except String GoogleCalendar × Nat :=
  withRetry (fun _ => wrapError "イベントの更新に失敗しました: " (apiUpdateEvent cal eventId ev))
    isRetryableError 3

/-- `GoogleCalendarClient.deleteEvent` (wrapped in `withRetry`); note that
the client catch block re-raises on a 404 from the API rather than
swallowing it. -/
def deleteEventClient (cal : GoogleCalendar) (eventId : String) :
    Except String GoogleCalendar × Nat :=
  withRetry (fun _ => wrapError "イベントの削除に失敗しました: " (apiDeleteEvent cal eventId))
    isRetryableError 3

/-- `GoogleCalendarClient.getEvent`: not retried; returns `none` for a
404 instead of raising. -/
def getEventClient (cal : GoogleCalendar) (eventId : String) : Option GoogleEvent :=
  apiGetEvent cal eventId

/-! ## Reconciliation engine (src/unnamed/part_008, SyncService) -/

/-- The slice of `AppConfig` the engine consults per event. -/
structure SyncConfig where
  excludePrivate : Bool
  defaultTimeZone : String

/-- Time-of-day part `dateTime.split('T')[1] || ''`. -/
def timePartOf (s : String) : String := (strSplitOnChar 'T' s).getD 1 ""

/-- Date part `dateTime.split('T')[0]`. -/
def datePartOf (s : String) : String := (strSplitOnChar 'T' s).getD 0 ""

/-- Midnight heuristic `hasNoTime` of `convertToGoogleEvent`. -/
def hasNoTime (e : GaroonEvent) : Bool :=
  strStartsWith (timePartOf e.start.dateTime) "00:00:00" &&
    (strStartsWith (timePartOf e.end_.dateTime) "00:00:00" ||
      strStartsWith (timePartOf e.end_.dateTime) "23:59:59")

/-- All-day classification of `convertToGoogleEvent`: explicit flag, or
event type `ALL_DAY`, or the midnight heuristic. -/
def isAllDayEvent (e : GaroonEvent) : Bool :=
  e.isAllDay || e.eventType == GaroonEventType.ALL_DAY || hasNoTime e

/-- `SyncService.convertToGoogleEvent`: translates a source event to a
destination event.  An unparseable end date in the all-day branch models
the `RangeError` that `toISOString` raises on an invalid `Date`. -/
def convertToGoogleEvent (cfg : SyncConfig) (e : GaroonEvent) : Except String GoogleEvent :=
  let attendeeNames :=
    joinSep ", " ((e.attendees.filter (fun a => a.type == "USER")).map (·.name))
  let description :=
    (if attendeeNames == "" then e.notes else e.notes ++ "\n\n参加者: " ++ attendeeNames) ++
      "\n\n(ガルーンから同期)"
  let visibility := if e.visibilityType == "PRIVATE" then "private" else "default"
  let summary := if e.eventMenu == "" then e.subject else e.eventMenu ++ ": " ++ e.subject
  if isAllDayEvent e then
    match parseYmd (datePartOf e.end_.dateTime) with
    | none => .error "Invalid time value"
    | some d =>
      .ok { id := none, summary := summary, description := description, location := e.location,
            start := .date (datePartOf e.start.dateTime),
            end_ := .date (formatYmd (addOneDay d)),
            visibility := visibility, garoonEventId := e.id, garoonUpdatedAt := e.updatedAt }
  else
    let defaultTimeZone := jsOr cfg.defaultTimeZone "Asia/Tokyo"
    .ok { id := none, summary := summary, description := description, location := e.location,
          start := .dateTime e.start.dateTime (jsOr e.start.timeZone defaultTimeZone),
          end_ := .dateTime e.end_.dateTime (jsOr e.end_.timeZone defaultTimeZone),
          visibility := visibility, garoonEventId := e.id, garoonUpdatedAt := e.updatedAt }

/-- Transient per-run counters. -/
structure SyncStats where
  added : Nat
  updated : Nat
  deleted : Nat
  errors : Nat
deriving DecidableEq

/-- Whole system state threaded through a run: the persisted store, the
destination calendar, the run counters, and instrumentation counting
destination delete API calls. -/
structure World where
  db : SyncData
  cal : GoogleCalendar
  stats : SyncStats
  destDeleteCalls : Nat
deriving DecidableEq

/-- `SyncService.createGoogleEvent`: translate, create at the destination,
record the mapping, log, and count the addition. -/
def createGoogleEvent (cfg : SyncConfig) (now : String) (w : World) (e : GaroonEvent) :
    Except String World :=
  match convertToGoogleEvent cfg e with
  | .error msg => .error ("イベント作成エラー (" ++ e.id ++ "): " ++ msg)
  | .ok gev =>
    match createEventClient w.cal gev with
    | (.ok (eid, cal), _) =>
      let db := saveSyncInfo w.db e.id eid e.updatedAt now
      let db := logSync db now "CREATE" (some e.id) (some eid) none
      .ok { w with cal := cal, db := db,
                   stats := { w.stats with added := w.stats.added + 1 } }
    | (.error msg, _) => .error ("イベント作成エラー (" ++ e.id ++ "): " ++ msg)

/-- `SyncService.updateGoogleEvent`: read the destination event back; if it
is absent, self-heal by creating instead; otherwise update in place and
refresh the record. -/
def updateGoogleEvent (cfg : SyncConfig) (now : String) (w : World) (e : GaroonEvent)
    (googleEventId : String) : Except String World :=
  match getEventClient w.cal googleEventId with
  | none => wrapError ("イベント更新エラー (" ++ e.id ++ "): ") (createGoogleEvent cfg now w e)
  | some _ =>
    match convertToGoogleEvent cfg e with
    | .error msg => .error ("イベント更新エラー (" ++ e.id ++ "): " ++ msg)
    | .ok gev =>
      match updateEventClient w.cal googleEventId { gev with id := some googleEventId } with
      | (.ok cal, _) =>
        let db := saveSyncInfo w.db e.id googleEventId e.updatedAt now
        let db := logSync db now "UPDATE" (some e.id) (some googleEventId) none
        .ok { w with cal := cal, db := db,
                     stats := { w.stats with updated := w.stats.updated + 1 } }
      | (.error msg, _) => .error ("イベント更新エラー (" ++ e.id ++ "): " ++ msg)

/-- `SyncService.syncEvent`: classify one fetched event against the store
(no record → create; differing `garoonUpdatedAt` → update; equal → no-op
logged as UNCHANGED). -/
def syncEvent (cfg : SyncConfig) (now : String) (w : World) (e : GaroonEvent) :
    Except String World :=
  match getSyncInfo w.db e.id with
  | none => createGoogleEvent cfg now w e
  | some syncInfo =>
    if syncInfo.garoonUpdatedAt != e.updatedAt then
      updateGoogleEvent cfg now w e syncInfo.googleEventId
    else
      .ok { w with db := logSync w.db now "UNCHANGED" (some e.id) (some syncInfo.googleEventId) none }

/-- Per-event error boundary of the batch loop: a rejected pipeline is
counted and logged without aborting the run. -/
def processEvent (cfg : SyncConfig) (now : String) (w : World) (e : GaroonEvent) : World :=
  match syncEvent cfg now w e with
  | .ok w2 => w2
  | .error msg =>
    { w with stats := { w.stats with errors := w.stats.errors + 1 },
             db := logSync w.db now "ERROR" (some e.id) none (some msg) }

/-- The `isAlreadyDeleted` test of `deleteRemovedEvents`. -/
def isAlreadyDeletedMessage (m : String) : Bool :=
  strContains m "404" || strContains m "Resource has been deleted"

/-- Loop body of `SyncService.deleteRemovedEvents` for one enumerated
record: prune empty-id records without a destination call; skip records
whose source event is still fetched; otherwise delete at the destination,
treating a 404-style failure as success, and remove the record. -/
def deleteRemovedStep (now : String) (currentGaroonEventIds : List String) (w : World)
    (syncedEvent : SyncedEventInfo) : World :=
  if syncedEvent.garoonEventId == "" then
    { w with db := deleteSyncInfoByGoogleEventId w.db syncedEvent.googleEventId }
  else if currentGaroonEventIds.contains syncedEvent.garoonEventId then w
  else
    match deleteEventClient w.cal syncedEvent.googleEventId with
    | (.ok cal, n) =>
      let db := deleteSyncInfo w.db syncedEvent.garoonEventId
      let db := logSync db now "DELETE" (some syncedEvent.garoonEventId)
        (some syncedEvent.googleEventId) none
      { w with cal := cal, db := db,
               stats := { w.stats with deleted := w.stats.deleted + 1 },
               destDeleteCalls := w.destDeleteCalls + n }
    | (.error msg, n) =>
      if isAlreadyDeletedMessage msg then
        let db := deleteSyncInfo w.db syncedEvent.garoonEventId
        let db := logSync db now "DELETE" (some syncedEvent.garoonEventId)
          (some syncedEvent.googleEventId) (some "Google側で既に削除済み")
        { w with db := db,
                 stats := { w.stats with deleted := w.stats.deleted + 1 },
                 destDeleteCalls := w.destDeleteCalls + n }
      else
        { w with db := logSync w.db now "ERROR" (some syncedEvent.garoonEventId)
                   (some syncedEvent.googleEventId) (some msg),
                 stats := { w.stats with errors := w.stats.errors + 1 },
                 destDeleteCalls := w.destDeleteCalls + n }

/-- `SyncService.deleteRemovedEvents`: iterates a snapshot of all
persisted records against the fetched source-id set. -/
def deleteRemovedEvents (now : String) (currentGaroonEventIds : List String) (w : World) :
    World :=
  (getAllSyncedEvents w.db).foldl (deleteRemovedStep now currentGaroonEventIds) w

/-- The exclude-private filter applied before the batch loop. -/
def filteredEvents (cfg : SyncConfig) (events : List GaroonEvent) : List GaroonEvent :=
  events.filter (fun e => !(cfg.excludePrivate && e.visibilityType == "PRIVATE"))

/-- The batch loop over the filtered events, sequentialised (each event's
pipeline touches only its own record, so with distinct ids this realises
the batched cooperative interleaving). -/
def runEventPhase (cfg : SyncConfig) (now : String) (w : World) (events : List GaroonEvent) :
    World :=
  events.foldl (processEvent cfg now) w

/-- `SyncService.syncEvents` on an already fetched event list: reset the
counters, compute the source-id set before the private filter, run the
batch loop on the filtered events, run the orphan pass, then the age-based
cleanup.  Notification sending has no effect on this state and is not
modelled. -/
def syncEvents (cfg : SyncConfig) (now cutoff : String) (events : List GaroonEvent)
    (w : World) : World :=
  let w0 : World := { w with stats := ⟨0, 0, 0, 0⟩, destDeleteCalls := 0 }
  let garoonEventIds := events.map (·.id)
  let filtered := filteredEvents cfg events
  let w1 := runEventPhase cfg now w0 filtered
  let w2 := deleteRemovedEvents now garoonEventIds w1
  { w2 with db := cleanupOldSyncInfo w2.db cutoff }

/-! ## Multi-target fetch merge (src/common/garoon.ts) -/

/-- JS `Map.prototype.set` keyed by event id: overwrite in place if the
key exists, else append (JS Maps preserve first-insertion order). -/
def mapSetById : List (String × GaroonEvent) → GaroonEvent → List (String × GaroonEvent)
  | [], e => [(e.id, e)]
  | p :: ps, e => if p.1 == e.id then (e.id, e) :: ps else p :: mapSetById ps e

/-- Merge step of `getScheduleFromMultipleTargets`: fold the per-target
results (in target order, as `Promise.allSettled` preserves order) into
one map keyed by event id, skipping failed targets, then take the values. -/
def mergeTargetResults (results : List (Except String (List GaroonEvent))) : List GaroonEvent :=
  (results.foldl
    (fun acc res =>
      match res with
      | .ok evs => evs.foldl mapSetById acc
      | .error _ => acc)
    ([] : List (String × GaroonEvent))).map (·.2)

/-- Concatenation, in target order, of the event lists of the fulfilled
targets (the stream the merge loop actually iterates). -/
def fulfilledEvents : List (Except String (List GaroonEvent)) → List GaroonEvent
  | [] => []
  | .ok evs :: rest => evs ++ fulfilledEvents rest
  | .error _ :: rest => fulfilledEvents rest

/-! ## Concrete fixtures used by witnesses and counterexamples -/

/-- Concrete all-day source event: the spec's 2024-01-10 to 2024-01-12
example. -/
def sampleAllDayEvent : GaroonEvent :=
  { id := "e1", eventMenu := "", subject := "trip",
    start := ⟨"2024-01-10T00:00:00+09:00", "Asia/Tokyo"⟩,
    end_ := ⟨"2024-01-12T00:00:00+09:00", "Asia/Tokyo"⟩,
    isAllDay := true, notes := "", attendees := [],
    visibilityType := "PUBLIC", eventType := GaroonEventType.REGULAR,
    updatedAt := "2024-01-05T00:00:00Z", createdAt := "2024-01-01T00:00:00Z",
    location := "" }

/-- Concrete timed source event with a nonempty id. -/
def sampleTimedEvent : GaroonEvent :=
  { sampleAllDayEvent with
    id := "e2"
    isAllDay := false
    start := ⟨"2024-01-10T10:00:00+09:00", "Asia/Tokyo"⟩
    end_ := ⟨"2024-01-10T11:00:00+09:00", "Asia/Tokyo"⟩ }

/-- The destination event `sampleTimedEvent` translates to. -/
def sampleTimedConverted : GoogleEvent :=
  { id := none, summary := "trip", description := "\n\n(ガルーンから同期)", location := "",
    start := .dateTime "2024-01-10T10:00:00+09:00" "Asia/Tokyo",
    end_ := .dateTime "2024-01-10T11:00:00+09:00" "Asia/Tokyo",
    visibility := "default", garoonEventId := "e2",
    garoonUpdatedAt := "2024-01-05T00:00:00Z" }

/-- Source event whose id is the empty string (degenerate input that the
source type permits; it translates and syncs without error). -/
def emptyIdEvent : GaroonEvent := { sampleTimedEvent with id := "" }

/-- Initial empty system state. -/
def emptyWorld : World := ⟨⟨[], [], 0⟩, ⟨[], 0⟩, ⟨0, 0, 0, 0⟩, 0⟩

/-- Configuration used by the concrete scenarios. -/
def witnessConfig : SyncConfig := ⟨true, ""⟩

/-- Stored record whose source event is no longer fetched. -/
def orphanRecord : SyncedEventInfo := ⟨"gone", "g9", "2024-01-01T00:00:00Z", "u0"⟩

/-- World holding only `orphanRecord`, with an empty destination calendar
(so the destination reports not-found on the delete). -/
def orphanWorld : World :=
  ⟨⟨[orphanRecord], [], 0⟩, ⟨[], 0⟩, ⟨0, 0, 0, 0⟩, 0⟩

/-- Structurally invalid stored record (empty source event id). -/
def corruptRecord : SyncedEventInfo := ⟨"", "g7", "2024-01-01T00:00:00Z", "u7"⟩

/-- Stored destination event referenced by `recordedWorld`. -/
def sampleStoredGoogleEvent : GoogleEvent :=
  { id := some "g1", summary := "trip", description := "", location := "",
    start := .dateTime "2024-01-10T10:00:00+09:00" "Asia/Tokyo",
    end_ := .dateTime "2024-01-10T11:00:00+09:00" "Asia/Tokyo",
    visibility := "default", garoonEventId := "e2",
    garoonUpdatedAt := "2024-01-05T00:00:00Z" }

/-- World in which `sampleTimedEvent` has already been synced to the
destination event `g1`. -/
def recordedWorld : World :=
  ⟨⟨[⟨"e2", "g1", "2024-01-06T00:00:00Z", "2024-01-05T00:00:00Z"⟩], [], 0⟩,
    ⟨[("g1", sampleStoredGoogleEvent)], 0⟩, ⟨0, 0, 0, 0⟩, 0⟩

/-- World in which the record for `sampleTimedEvent` carries a stale
source timestamp. -/
def staleRecordedWorld : World :=
  ⟨⟨[⟨"e2", "g1", "2024-01-06T00:00:00Z", "2024-01-02T00:00:00Z"⟩], [], 0⟩,
    ⟨[("g1", sampleStoredGoogleEvent)], 0⟩, ⟨0, 0, 0, 0⟩, 0⟩

/-- Log entry fixture for the capped-log computations. -/
def sampleLogEntry : SyncLogEntry := ⟨0, "t", "CREATE", none, none, none⟩

/-! ## Generic list lemmas used by several proofs -/

/-- Erasing by a predicate an element does not satisfy cannot remove it. -/
theorem mem_eraseP_of_not {α : Type} {a : α} {p : α → Bool} :
    ∀ {l : List α}, a ∈ l → p a = false → a ∈ l.eraseP p
  | [], h, _ => absurd h (List.not_mem_nil a)
  | b :: bs, h, hpa => by
    rcases List.mem_cons.mp h with rfl | hmem
    · simp only [List.eraseP_cons, hpa, cond_false]
      exact List.mem_cons_self _ _
    · cases hpb : p b with
      | true =>
        simp only [List.eraseP_cons, hpb, cond_true]
        exact hmem
      | false =>
        simp only [List.eraseP_cons, hpb, cond_false]
        exact List.mem_cons_of_mem _ (mem_eraseP_of_not hmem hpa)

/-- Filtering by a weaker predicate does not change the first match of a
stronger one. -/
theorem find?_filter_of_imp {α : Type} (p q : α → Bool) (h : ∀ a, p a = true → q a = true) :
    ∀ l : List α, (l.filter q).find? p = l.find? p
  | [] => rfl
  | b :: bs => by
    cases hpb : p b with
    | true =>
      rw [List.filter_cons, if_pos (h b hpb)]
      simp [List.find?_cons, hpb]
    | false =>
      cases hqb : q b with
      | true =>
        rw [List.filter_cons, if_pos hqb]
        simp [List.find?_cons, hpb, find?_filter_of_imp p q h bs]
      | false =>
        rw [List.filter_cons, if_neg (by simp [hqb])]
        simp [List.find?_cons, hpb, find?_filter_of_imp p q h bs]

/-! ## C6: retry policy attempt counts -/

/-- Helper for the retry bound: when every attempt fails retryably, the
loop uses all its fuel and reports the last attempt's failure. -/
theorem retryLoop_all_fail {ε α : Type} (fn : Nat → Except ε α) (shouldRetry : ε → Bool)
    (h : ∀ i, ∃ e, fn i = Except.error e ∧ shouldRetry e = true) :
    ∀ (r a : Nat), ∃ e, fn (a + r) = Except.error e ∧
      retryLoop fn shouldRetry r a = (Except.error e, a + r + 1) := by
  intro r
  induction r with
  | zero =>
    intro a
    obtain ⟨e, he, _⟩ := h a
    exact ⟨e, by simpa using he, by simp [retryLoop, he]⟩
  | succ n ih =>
    intro a
    obtain ⟨e, he, hr⟩ := h a
    obtain ⟨e2, he2, hloop⟩ := ih (a + 1)
    refine ⟨e2, by rw [show a + (n + 1) = a + 1 + n by omega]; exact he2, ?_⟩
    rw [show retryLoop fn shouldRetry (n + 1) a =
      (if shouldRetry e then retryLoop fn shouldRetry n (a + 1)
       else (Except.error e, a + 1)) by simp [retryLoop, he]]
    rw [hr, if_pos rfl, hloop]
    refine congrArg _ (by omega)

/-- C6: with retry budget `maxRetries`, an operation whose every attempt
fails retryably is invoked exactly `maxRetries + 1` times and the last
failure propagates; an operation whose first attempt fails non-retryably
is invoked exactly once and that failure propagates immediately. -/
theorem withRetry_attempt_counts {ε α : Type} (fn : Nat → Except ε α)
    (shouldRetry : ε → Bool) (maxRetries : Nat) :
    ((∀ i, ∃ e, fn i = Except.error e ∧ shouldRetry e = true) →
      ∃ e, fn maxRetries = Except.error e ∧
        withRetry fn shouldRetry maxRetries = (Except.error e, maxRetries + 1)) ∧
    (∀ e, fn 0 = Except.error e → shouldRetry e = false →
      withRetry fn shouldRetry maxRetries = (Except.error e, 1)) := by
  constructor
  · intro h
    obtain ⟨e, he, hloop⟩ := retryLoop_all_fail fn shouldRetry h maxRetries 0
    exact ⟨e, by simpa using he, by simpa [withRetry] using hloop⟩
  · intro e he hnr
    cases maxRetries with
    | zero => simp [withRetry, retryLoop, he]
    | succ n => simp [withRetry, retryLoop, he, hnr]

/-- Witness for C6: a permanently timing-out operation under the default
classifier is attempted 4 times with `maxRetries = 3`; a `400`-failing
operation is attempted once. -/
theorem withRetry_attempt_counts_witness :
    withRetry (fun _ => (Except.error "timeout" : Except String Nat)) isRetryableError 3 =
      (Except.error "timeout", 4) ∧
    withRetry (fun _ => (Except.error "400 bad request" : Except String Nat)) isRetryableError 3 =
      (Except.error "400 bad request", 1) := by
  constructor
  · obtain ⟨e, he, hres⟩ :=
      (withRetry_attempt_counts (fun _ => (Except.error "timeout" : Except String Nat))
        isRetryableError 3).1 (fun _ => ⟨"timeout", rfl, by decide⟩)
    have : "timeout" = e := by simpa using he
    rw [← this] at hres
    exact hres
  · exact (withRetry_attempt_counts (fun _ => (Except.error "400 bad request" : Except String Nat))
      isRetryableError 3).2 "400 bad request" rfl (by decide)

/-! ## C9: the activity log is append-only and capped -/

/-- C9: one `logSync` call appends a fresh entry; the stored log is always
a suffix of the old log extended by that entry (existing entries are never
modified, only the oldest are dropped), and its size never exceeds the
1000-entry retention ceiling. -/
theorem logSync_append_only_capped (db : SyncData) (now action : String)
    (garoonEventId googleEventId details : Option String) :
    (logSync db now action garoonEventId googleEventId details).logs.length ≤ 1000 ∧
    ∃ k, (logSync db now action garoonEventId googleEventId details).logs =
      (db.logs ++ [SyncLogEntry.mk (db.lastLogId + 1) now action (nullIfEmpty garoonEventId)
        (nullIfEmpty googleEventId) (nullIfEmpty details)]).drop k := by
  set entry : SyncLogEntry := SyncLogEntry.mk (db.lastLogId + 1) now action
    (nullIfEmpty garoonEventId) (nullIfEmpty googleEventId) (nullIfEmpty details) with hentry
  have hrepr : (logSync db now action garoonEventId googleEventId details).logs =
      if (db.logs ++ [entry]).length > 1000
      then (db.logs ++ [entry]).drop ((db.logs ++ [entry]).length - 500)
      else db.logs ++ [entry] := rfl
  have hlen : (db.logs ++ [entry]).length = db.logs.length + 1 := by simp
  rw [hlen] at hrepr
  by_cases h : db.logs.length + 1 > 1000
  · rw [if_pos h] at hrepr
    refine ⟨?_, db.logs.length + 1 - 500, hrepr⟩
    rw [hrepr, List.length_drop, hlen]
    omega
  · rw [if_neg h] at hrepr
    refine ⟨?_, 0, by rw [hrepr, List.drop_zero]⟩
    rw [hrepr, hlen]
    omega

/-! ## C4: all-day translation -/

/-- C4: an event classified all-day (explicit flag, `ALL_DAY` type, or the
midnight heuristic) translates with the source start date and the source
end date plus one calendar day (end-exclusive adjustment). -/
theorem convertToGoogleEvent_allday (cfg : SyncConfig) (e : GaroonEvent) (d : Ymd)
    (h1 : isAllDayEvent e = true)
    (h2 : parseYmd (datePartOf e.end_.dateTime) = some d) :
    (convertToGoogleEvent cfg e).map (fun g => (g.start, g.end_)) =
      Except.ok (GoogleEventTime.date (datePartOf e.start.dateTime),
        GoogleEventTime.date (formatYmd (addOneDay d))) := by
  unfold convertToGoogleEvent
  rw [h1]
  simp [h2, Except.map]

/-- Witness for C4: the spec's example, an all-day event spanning
2024-01-10 to 2024-01-12, translates to start date 2024-01-10 and
(exclusive) end date 2024-01-13. -/
theorem convertToGoogleEvent_allday_witness :
    (convertToGoogleEvent witnessConfig sampleAllDayEvent).map (fun g => (g.start, g.end_)) =
      Except.ok (GoogleEventTime.date "2024-01-10", GoogleEventTime.date "2024-01-13") := by
  rw [convertToGoogleEvent_allday witnessConfig sampleAllDayEvent ⟨2024, 1, 12⟩
    (by decide) (by decide)]
  rfl

/-! ## C2: per-event classification -/

/-- C2: `syncEvent` classifies each fetched event by the store lookup: no
record found routes to the create path; a record whose stored source
timestamp differs routes to the update path against the recorded
destination id; an equal timestamp performs no destination call and only
appends an UNCHANGED entry to the activity log. -/
theorem syncEvent_classification (cfg : SyncConfig) (now : String) (w : World)
    (e : GaroonEvent) :
    (getSyncInfo w.db e.id = none →
      syncEvent cfg now w e = createGoogleEvent cfg now w e) ∧
    (∀ info, getSyncInfo w.db e.id = some info → info.garoonUpdatedAt ≠ e.updatedAt →
      syncEvent cfg now w e = updateGoogleEvent cfg now w e info.googleEventId) ∧
    (∀ info, getSyncInfo w.db e.id = some info → info.garoonUpdatedAt = e.updatedAt →
      syncEvent cfg now w e = Except.ok { w with
        db := logSync w.db now "UNCHANGED" (some e.id) (some info.googleEventId) none }) := by
  refine ⟨fun h => ?_, fun info h hne => ?_, fun info h heq => ?_⟩
  · unfold syncEvent
    rw [h]
  · have hcond : (info.garoonUpdatedAt != e.updatedAt) = true := bne_iff_ne.mpr hne
    simp [syncEvent, h, hcond]
  · simp [syncEvent, h, heq]

/-- Witness for C2: create on an empty store, update on a stale record,
no-op on an up-to-date record. -/
theorem syncEvent_classification_witness :
    syncEvent witnessConfig "t1" emptyWorld sampleTimedEvent =
      createGoogleEvent witnessConfig "t1" emptyWorld sampleTimedEvent ∧
    syncEvent witnessConfig "t1" staleRecordedWorld sampleTimedEvent =
      updateGoogleEvent witnessConfig "t1" staleRecordedWorld sampleTimedEvent "g1" ∧
    syncEvent witnessConfig "t1" recordedWorld sampleTimedEvent =
      Except.ok { recordedWorld with
        db := logSync recordedWorld.db "t1" "UNCHANGED" (some "e2") (some "g1") none } := by
  refine ⟨(syncEvent_classification witnessConfig "t1" emptyWorld sampleTimedEvent).1
      (by decide), ?_, ?_⟩
  · exact (syncEvent_classification witnessConfig "t1" staleRecordedWorld sampleTimedEvent).2.1
      ⟨"e2", "g1", "2024-01-06T00:00:00Z", "2024-01-02T00:00:00Z"⟩ (by decide) (by decide)
  · exact (syncEvent_classification witnessConfig "t1" recordedWorld sampleTimedEvent).2.2
      ⟨"e2", "g1", "2024-01-06T00:00:00Z", "2024-01-05T00:00:00Z"⟩ (by decide) rfl

/-! ## C5: self-healing update -/

/-- The destination create succeeds on the first attempt (the retry
wrapper returns after one invocation). -/
theorem createEventClient_eq (cal : GoogleCalendar) (gev : GoogleEvent) :
    createEventClient cal gev = (Except.ok (apiInsertEvent cal gev), 1) := rfl

/-- Lookup inside the log-preserving store update. -/
theorem getSyncInfo_logSync (db : SyncData) (now action : String)
    (a b c : Option String) (g : String) :
    getSyncInfo (logSync db now action a b c) g = getSyncInfo db g := rfl

/-- An upsert is found by its own key. -/
theorem find?_upsertEvents_self (r : SyncedEventInfo) :
    ∀ l, (upsertEvents r l).find? (fun x => x.garoonEventId == r.garoonEventId) = some r
  | [] => by simp [upsertEvents, List.find?_cons]
  | x :: xs => by
    cases hx : x.garoonEventId == r.garoonEventId with
    | true => simp [upsertEvents, hx, List.find?_cons]
    | false => simp [upsertEvents, hx, List.find?_cons, find?_upsertEvents_self r xs]

/-- A saved record is what the store then reports for its id. -/
theorem getSyncInfo_saveSyncInfo_self (db : SyncData) (g ge u now : String) :
    getSyncInfo (saveSyncInfo db g ge u now) g = some ⟨g, ge, now, u⟩ :=
  find?_upsertEvents_self ⟨g, ge, now, u⟩ db.events

/-- Successful create path: the destination gains a fresh event and the
store records the new mapping with the event's source timestamp. -/
theorem createGoogleEvent_ok (cfg : SyncConfig) (now : String) (w : World) (e : GaroonEvent)
    (gev : GoogleEvent) (hconv : convertToGoogleEvent cfg e = Except.ok gev) :
    createGoogleEvent cfg now w e = Except.ok { w with
      cal := (apiInsertEvent w.cal gev).2,
      db := logSync (saveSyncInfo w.db e.id (apiInsertEvent w.cal gev).1 e.updatedAt now)
        now "CREATE" (some e.id) (some (apiInsertEvent w.cal gev).1) none,
      stats := { w.stats with added := w.stats.added + 1 } } := by
  unfold createGoogleEvent
  rw [hconv]
  rfl

/-- C5: when an event classified UPDATE cannot be read back at the
destination (`getEvent` reports absent without raising), the engine
creates instead of updating, and the rewritten sync record carries the
newly assigned destination id and the event's current source timestamp. -/
theorem updateGoogleEvent_self_healing (cfg : SyncConfig) (now : String) (w : World)
    (e : GaroonEvent) (googleEventId : String) (gev : GoogleEvent)
    (habs : getEventClient w.cal googleEventId = none)
    (hconv : convertToGoogleEvent cfg e = Except.ok gev) :
    ∃ w2, updateGoogleEvent cfg now w e googleEventId = Except.ok w2 ∧
      getSyncInfo w2.db e.id = some ⟨e.id, freshEventId w.cal.fresh, now, e.updatedAt⟩ ∧
      w2.stats.added = w.stats.added + 1 ∧
      w2.stats.updated = w.stats.updated ∧
      w2.cal.events.length = w.cal.events.length + 1 := by
  refine ⟨{ w with
      cal := (apiInsertEvent w.cal gev).2,
      db := logSync (saveSyncInfo w.db e.id (apiInsertEvent w.cal gev).1 e.updatedAt now)
        now "CREATE" (some e.id) (some (apiInsertEvent w.cal gev).1) none,
      stats := { w.stats with added := w.stats.added + 1 } }, ?_, ?_, rfl, rfl, ?_⟩
  · unfold updateGoogleEvent
    rw [habs]
    show wrapError ("イベント更新エラー (" ++ e.id ++ "): ") (createGoogleEvent cfg now w e) = _
    rw [createGoogleEvent_ok cfg now w e gev hconv]
    rfl
  · rw [getSyncInfo_logSync]
    exact getSyncInfo_saveSyncInfo_self w.db e.id (apiInsertEvent w.cal gev).1 e.updatedAt now
  · simp [apiInsertEvent]

/-- Witness for C5: updating against the absent destination id `g9`
creates `gcal-0` instead and rewrites the record accordingly. -/
theorem updateGoogleEvent_self_healing_witness :
    ∃ w2, updateGoogleEvent witnessConfig "t1" emptyWorld sampleTimedEvent "g9" =
        Except.ok w2 ∧
      getSyncInfo w2.db "e2" = some ⟨"e2", "gcal-0", "t1", "2024-01-05T00:00:00Z"⟩ ∧
      w2.stats.added = 1 ∧ w2.stats.updated = 0 ∧ w2.cal.events.length = 1 := by
  obtain ⟨w2, h1, h2, h3, h4, h5⟩ := updateGoogleEvent_self_healing witnessConfig "t1"
    emptyWorld sampleTimedEvent "g9" sampleTimedConverted rfl rfl
  exact ⟨w2, h1, h2, h3, h4, h5⟩

/-! ## C3 and C8: the orphan pass and not-found destination deletes -/

/-- Behaviour of the retried destination delete: one underlying API call
in every case; success when the id is present, a wrapped (non-retryable)
not-found failure when it is absent. -/
theorem deleteEventClient_eq (cal : GoogleCalendar) (eventId : String) :
    deleteEventClient cal eventId =
      if cal.events.any (fun p => p.1 == eventId) then
        (Except.ok { cal with events := cal.events.filter (fun p => !(p.1 == eventId)) }, 1)
      else
        (Except.error ("イベントの削除に失敗しました: " ++ googleNotFoundMessage), 1) := by
  by_cases h : cal.events.any (fun p => p.1 == eventId)
  · have happi : apiDeleteEvent cal eventId =
        Except.ok { cal with events := cal.events.filter (fun p => !(p.1 == eventId)) } := by
      unfold apiDeleteEvent
      rw [if_pos h]
    rw [if_pos h]
    simp [deleteEventClient, withRetry, retryLoop, wrapError, happi]
  · have happi : apiDeleteEvent cal eventId = Except.error googleNotFoundMessage := by
      unfold apiDeleteEvent
      rw [if_neg h]
    rw [if_neg h]
    simp [deleteEventClient, withRetry, retryLoop, wrapError, happi,
      (by decide : isRetryableError ("イベントの削除に失敗しました: " ++ googleNotFoundMessage) = false)]

/-- Shared computation: the orphan-pass step on an orphaned record, in
both the destination-present and destination-absent (not-found) cases. -/
theorem orphanStep_delete_eq (now : String) (ids : List String) (w : World)
    (r : SyncedEventInfo)
    (hne : r.garoonEventId ≠ "") (hnotin : ids.contains r.garoonEventId = false) :
    (deleteRemovedStep now ids w r).destDeleteCalls = w.destDeleteCalls + 1 ∧
    (deleteRemovedStep now ids w r).db.events =
      w.db.events.eraseP (fun x => x.garoonEventId == r.garoonEventId) ∧
    (deleteRemovedStep now ids w r).stats.deleted = w.stats.deleted + 1 ∧
    (deleteRemovedStep now ids w r).stats.errors = w.stats.errors := by
  unfold deleteRemovedStep
  rw [if_neg (by simp [hne]), if_neg (by rw [hnotin]; exact Bool.false_ne_true),
    deleteEventClient_eq]
  by_cases hany : w.cal.events.any (fun p => p.1 == r.googleEventId)
  · rw [if_pos hany]
    exact ⟨rfl, rfl, rfl, rfl⟩
  · rw [if_neg hany]
    exact ⟨rfl, rfl, rfl, rfl⟩

/-- Shared computation: the orphan-pass step on a corrupt (empty-id)
record prunes by destination id without touching anything else. -/
theorem orphanStep_empty_eq (now : String) (ids : List String) (w : World)
    (r : SyncedEventInfo) (h : r.garoonEventId = "") :
    (deleteRemovedStep now ids w r).db.events =
      w.db.events.eraseP (fun x => x.googleEventId == r.googleEventId) ∧
    (deleteRemovedStep now ids w r).destDeleteCalls = w.destDeleteCalls ∧
    (deleteRemovedStep now ids w r).stats = w.stats := by
  unfold deleteRemovedStep
  rw [if_pos (by simp [h])]
  exact ⟨rfl, rfl, rfl⟩

/-- C3: for a record whose source id is absent from the fetched set, the
orphan pass makes exactly one destination delete call, removes the record
and counts one deletion, whether or not the destination still has the
event (a not-found response is treated the same as success); a record with
an empty source id is pruned (first entry with its destination id) without
any destination call. -/
theorem deleteRemovedStep_orphan_spec (now : String) (ids : List String) (w : World)
    (r : SyncedEventInfo) :
    (r.garoonEventId ≠ "" → ids.contains r.garoonEventId = false →
      (deleteRemovedStep now ids w r).destDeleteCalls = w.destDeleteCalls + 1 ∧
      (deleteRemovedStep now ids w r).db.events =
        w.db.events.eraseP (fun x => x.garoonEventId == r.garoonEventId) ∧
      (deleteRemovedStep now ids w r).stats.deleted = w.stats.deleted + 1 ∧
      (deleteRemovedStep now ids w r).stats.errors = w.stats.errors) ∧
    (r.garoonEventId = "" →
      (deleteRemovedStep now ids w r).db.events =
        w.db.events.eraseP (fun x => x.googleEventId == r.googleEventId) ∧
      (deleteRemovedStep now ids w r).destDeleteCalls = w.destDeleteCalls ∧
      (deleteRemovedStep now ids w r).stats = w.stats) :=
  ⟨fun hne hnotin => orphanStep_delete_eq now ids w r hne hnotin,
   fun h => orphanStep_empty_eq now ids w r h⟩

/-- Witness for C3: the orphan record `gone` against an empty destination
calendar (destination reports not-found) and the corrupt record. -/
theorem deleteRemovedStep_orphan_spec_witness :
    (deleteRemovedStep "t1" ["keep"] orphanWorld orphanRecord).destDeleteCalls = 1 ∧
    (deleteRemovedStep "t1" ["keep"] orphanWorld orphanRecord).db.events = [] ∧
    (deleteRemovedStep "t1" ["keep"] orphanWorld orphanRecord).stats.deleted = 1 ∧
    (deleteRemovedStep "t1" ["keep"] orphanWorld orphanRecord).stats.errors = 0 ∧
    (deleteRemovedStep "t1" ["keep"] orphanWorld corruptRecord).destDeleteCalls = 0 := by
  obtain ⟨h1, h2, h3, h4⟩ :=
    (deleteRemovedStep_orphan_spec "t1" ["keep"] orphanWorld orphanRecord).1
      (by decide) (by decide)
  obtain ⟨g1, g2, g3⟩ :=
    (deleteRemovedStep_orphan_spec "t1" ["keep"] orphanWorld corruptRecord).2 rfl
  exact ⟨h1, h2, h3, h4, g2⟩

/-- C8 counterexample: the Destination Adapter's delete does RAISE when
the destination reports that the event does not exist (the client catch
block wraps and re-throws the 404), rather than returning success. -/
theorem deleteEventClient_raises_on_not_found :
    (deleteEventClient ⟨[], 0⟩ "evt1").1 =
      Except.error "イベントの削除に失敗しました: 404: Resource has been deleted" := rfl

/-- C8 amended: not-found tolerance lives one layer up: the reconciliation
engine's orphan pass catches the raised delete failure, recognises the
404-style message, and completes as a successful no-op (record removed,
deletion counted, no error, destination untouched). -/
theorem orphan_pass_treats_not_found_as_success (now : String) (ids : List String)
    (w : World) (r : SyncedEventInfo)
    (h1 : r.garoonEventId ≠ "") (h2 : ids.contains r.garoonEventId = false)
    (h3 : w.cal.events.any (fun p => p.1 == r.googleEventId) = false) :
    (deleteEventClient w.cal r.googleEventId).1 =
      Except.error ("イベントの削除に失敗しました: " ++ googleNotFoundMessage) ∧
    (deleteRemovedStep now ids w r).stats.errors = w.stats.errors ∧
    (deleteRemovedStep now ids w r).stats.deleted = w.stats.deleted + 1 ∧
    (deleteRemovedStep now ids w r).db.events =
      w.db.events.eraseP (fun x => x.garoonEventId == r.garoonEventId) ∧
    (deleteRemovedStep now ids w r).cal = w.cal := by
  refine ⟨by rw [deleteEventClient_eq, if_neg (by simp [h3])], ?_, ?_, ?_, ?_⟩ <;>
    · unfold deleteRemovedStep
      rw [if_neg (by simp [h1]), if_neg (by rw [h2]; exact Bool.false_ne_true),
        deleteEventClient_eq, if_neg (by rw [h3]; exact Bool.false_ne_true)]
      rfl

/-- Witness for C8's amended claim at the concrete orphan scenario. -/
theorem orphan_pass_treats_not_found_as_success_witness :
    (deleteEventClient orphanWorld.cal "g9").1 =
      Except.error ("イベントの削除に失敗しました: " ++ googleNotFoundMessage) ∧
    (deleteRemovedStep "t1" ["keep"] orphanWorld orphanRecord).stats.errors = 0 ∧
    (deleteRemovedStep "t1" ["keep"] orphanWorld orphanRecord).stats.deleted = 1 := by
  obtain ⟨h1, h2, h3, _, _⟩ := orphan_pass_treats_not_found_as_success "t1" ["keep"]
    orphanWorld orphanRecord (by decide) (by decide) rfl
  exact ⟨h1, h2, h3⟩

/-! ## C1 counterexample: a successfully synced event with an empty id -/

/-- C1 counterexample: with a single fetched event whose id is the empty
string, the first run from the empty state syncs every event successfully
(no errors), yet the immediately following run with the identical event
list performs a destination create again (`added = 1`): the defensive
empty-id pruning in the orphan pass deletes the freshly written record
each run. -/
theorem syncEvents_rerun_not_noop_on_empty_id :
    (syncEvents witnessConfig "2024-06-01T00:00:00.000Z" "2024-03-03T00:00:00.000Z"
      [emptyIdEvent] emptyWorld).stats.errors = 0 ∧
    (syncEvents witnessConfig "2024-06-01T00:00:00.000Z" "2024-03-03T00:00:00.000Z"
      [emptyIdEvent] emptyWorld).stats.added = 1 ∧
    (syncEvents witnessConfig "2024-06-01T00:10:00.000Z" "2024-03-03T00:10:00.000Z"
      [emptyIdEvent]
      (syncEvents witnessConfig "2024-06-01T00:00:00.000Z" "2024-03-03T00:00:00.000Z"
        [emptyIdEvent] emptyWorld)).stats.added = 1 := by decide

/-! ## C7: multi-target merge, last scope wins -/

/-- First-match lookup after a map `set`: the written key reports the new
value, all other keys are untouched. -/
theorem find_eq_mapSetById (e : GaroonEvent) (k : String) :
    ∀ m, (mapSetById m e).find? (fun p => p.1 == k) =
      if e.id == k then some (e.id, e) else m.find? (fun p => p.1 == k)
  | [] => by
    cases hek : e.id == k <;> simp [mapSetById, List.find?_cons, hek]
  | p :: ps => by
    cases hpe : p.1 == e.id with
    | true =>
      have hp1 : p.1 = e.id := eq_of_beq hpe
      cases hek : e.id == k with
      | true => simp [mapSetById, hpe, List.find?_cons, hek]
      | false => simp [mapSetById, hpe, List.find?_cons, hek, hp1]
    | false =>
      cases hek : e.id == k with
      | true =>
        have hp1 : (p.1 == k) = false := by
          rw [← eq_of_beq hek]
          exact hpe
        simp [mapSetById, hpe, List.find?_cons, hp1, find_eq_mapSetById e k ps, hek]
      | false =>
        cases hp1 : p.1 == k <;>
          simp [mapSetById, hpe, List.find?_cons, hp1, find_eq_mapSetById e k ps, hek]

/-- Key membership after a map `set`. -/
theorem mem_keys_mapSetById (e : GaroonEvent) (k : String) :
    ∀ m, k ∈ (mapSetById m e).map Prod.fst ↔ k ∈ m.map Prod.fst ∨ k = e.id
  | [] => by simp [mapSetById]
  | p :: ps => by
    cases hpe : p.1 == e.id with
    | true =>
      have hp1 : p.1 = e.id := eq_of_beq hpe
      simp [mapSetById, hpe, hp1]
      tauto
    | false =>
      simp [mapSetById, hpe, mem_keys_mapSetById e k ps]
      tauto

/-- A map `set` keeps the keys pairwise distinct. -/
theorem keys_nodup_mapSetById (e : GaroonEvent) :
    ∀ m, (m.map Prod.fst).Nodup → ((mapSetById m e).map Prod.fst).Nodup
  | [], _ => by simp [mapSetById]
  | p :: ps, h => by
    rw [List.map_cons, List.nodup_cons] at h
    obtain ⟨hp, hps⟩ := h
    cases hpe : p.1 == e.id with
    | true =>
      have hp1 : p.1 = e.id := eq_of_beq hpe
      simp only [mapSetById, hpe, cond_true, List.map_cons]
      exact List.nodup_cons.mpr ⟨by rw [← hp1]; exact hp, hps⟩
    | false =>
      simp only [mapSetById, hpe, cond_false, List.map_cons]
      refine List.nodup_cons.mpr ⟨?_, keys_nodup_mapSetById e ps hps⟩
      intro hmem
      rcases (mem_keys_mapSetById e p.1 ps).mp hmem with hin | heq
      · exact hp hin
      · rw [heq] at hpe
        simp at hpe

/-- Every entry written by the merge has its key equal to its value's id. -/
theorem pairs_wf_mapSetById (e : GaroonEvent) :
    ∀ m, (∀ pr ∈ m, pr.1 = pr.2.id) → ∀ pr ∈ mapSetById m e, pr.1 = pr.2.id
  | [], _, pr, hpr => by
    simp [mapSetById] at hpr
    rw [hpr]
  | p :: ps, h, pr, hpr => by
    cases hpe : p.1 == e.id with
    | true =>
      rw [mapSetById, if_pos hpe] at hpr
      rcases List.mem_cons.mp hpr with rfl | hmem
      · rfl
      · exact h pr (List.mem_cons_of_mem _ hmem)
    | false =>
      rw [mapSetById, if_neg (by rw [hpe]; exact Bool.false_ne_true)] at hpr
      rcases List.mem_cons.mp hpr with rfl | hmem
      · exact h pr (List.mem_cons_self _ _)
      · exact pairs_wf_mapSetById e ps (fun q hq => h q (List.mem_cons_of_mem _ hq)) pr hmem

/-- Folding a stream of events into the map: the first match for a key is
the stream's last event with that id, else whatever the map already held. -/
theorem find_eq_foldl_mapSetById (k : String) :
    ∀ (l : List GaroonEvent) (m : List (String × GaroonEvent)),
      (l.foldl mapSetById m).find? (fun p => p.1 == k) =
        match l.reverse.find? (fun x => x.id == k) with
        | some x => some (x.id, x)
        | none => m.find? (fun p => p.1 == k)
  | [], m => by simp
  | e :: es, m => by
    rw [List.foldl_cons, find_eq_foldl_mapSetById k es (mapSetById m e)]
    rw [List.reverse_cons, List.find?_append]
    cases hrev : es.reverse.find? (fun x => x.id == k) with
    | some x => simp [Option.or]
    | none =>
      cases hek : e.id == k with
      | true => simp [Option.or, List.find?_cons, hek, find_eq_mapSetById e k m]
      | false => simp [Option.or, List.find?_cons, hek, find_eq_mapSetById e k m]

/-- Folding a stream of events keeps the keys pairwise distinct. -/
theorem keys_nodup_foldl_mapSetById :
    ∀ (l : List GaroonEvent) (m : List (String × GaroonEvent)),
      (m.map Prod.fst).Nodup → ((l.foldl mapSetById m).map Prod.fst).Nodup
  | [], _, h => h
  | e :: es, m, h =>
    keys_nodup_foldl_mapSetById es (mapSetById m e) (keys_nodup_mapSetById e m h)

/-- Folding a stream of events keeps key = value id. -/
theorem pairs_wf_foldl_mapSetById :
    ∀ (l : List GaroonEvent) (m : List (String × GaroonEvent)),
      (∀ pr ∈ m, pr.1 = pr.2.id) →
      ∀ pr ∈ l.foldl mapSetById m, pr.1 = pr.2.id
  | [], _, h => h
  | e :: es, m, h =>
    pairs_wf_foldl_mapSetById es (mapSetById m e) (pairs_wf_mapSetById e m h)

/-- The merge loop over per-target results equals the fold over the
concatenated fulfilled event stream. -/
theorem merge_foldl_eq :
    ∀ (results : List (Except String (List GaroonEvent))) (m : List (String × GaroonEvent)),
      results.foldl
        (fun acc res =>
          match res with
          | .ok evs => evs.foldl mapSetById acc
          | .error _ => acc) m =
      (fulfilledEvents results).foldl mapSetById m
  | [], _ => rfl
  | .ok evs :: rest, m => by
    rw [List.foldl_cons]
    rw [merge_foldl_eq rest (evs.foldl mapSetById m)]
    rw [fulfilledEvents, List.foldl_append]
  | .error _ :: rest, m => by
    rw [List.foldl_cons]
    exact merge_foldl_eq rest m

/-- Predicate-congruent first match. -/
theorem find_congr_pred {α : Type} (p q : α → Bool) :
    ∀ l : List α, (∀ a ∈ l, p a = q a) → l.find? p = l.find? q
  | [], _ => rfl
  | b :: bs, h => by
    have hb := h b (List.mem_cons_self _ _)
    cases hq : q b with
    | true => simp [List.find?_cons, hq, hb ▸ hq]
    | false =>
      rw [List.find?_cons, List.find?_cons, hb, hq]
      exact find_congr_pred p q bs (fun a ha => h a (List.mem_cons_of_mem _ ha))

/-- First match through the value projection of an entry list. -/
theorem find_map_snd {α β : Type} (p : β → Bool) :
    ∀ m : List (α × β),
      (m.map Prod.snd).find? p = (m.find? (fun pr => p pr.2)).map Prod.snd
  | [] => rfl
  | pr :: prs => by
    cases hp : p pr.2 with
    | true => simp [List.find?_cons, hp]
    | false => simp [List.find?_cons, hp, find_map_snd p prs]

/-- C7: in the multi-scope merge every source event identity appears at
most once, and the entry reported for an identity is the last event with
that identity in the fulfilled results, processed in scope order (last
scope wins). -/
theorem mergeTargetResults_last_scope_wins (results : List (Except String (List GaroonEvent))) :
    ((mergeTargetResults results).map (fun e => e.id)).Nodup ∧
    ∀ k, (mergeTargetResults results).find? (fun e => e.id == k) =
      (fulfilledEvents results).reverse.find? (fun e => e.id == k) := by
  have hmerge : mergeTargetResults results =
      ((fulfilledEvents results).foldl mapSetById []).map Prod.snd := by
    unfold mergeTargetResults
    rw [merge_foldl_eq]
  have hwf : ∀ pr ∈ (fulfilledEvents results).foldl mapSetById
      ([] : List (String × GaroonEvent)), pr.1 = pr.2.id :=
    pairs_wf_foldl_mapSetById _ _ (fun pr h => absurd h (List.not_mem_nil pr))
  have hnodup : (((fulfilledEvents results).foldl mapSetById
      ([] : List (String × GaroonEvent))).map Prod.fst).Nodup :=
    keys_nodup_foldl_mapSetById _ _ (by simp)
  constructor
  · rw [hmerge, List.map_map]
    have hcg : ((fulfilledEvents results).foldl mapSetById
        ([] : List (String × GaroonEvent))).map ((fun e => e.id) ∘ Prod.snd) =
        ((fulfilledEvents results).foldl mapSetById
          ([] : List (String × GaroonEvent))).map Prod.fst :=
      List.map_congr_left (fun pr hpr => (hwf pr hpr).symm)
    rw [hcg]
    exact hnodup
  · intro k
    rw [hmerge, find_map_snd]
    have hpred : ((fulfilledEvents results).foldl mapSetById
        ([] : List (String × GaroonEvent))).find? (fun pr => pr.2.id == k) =
        ((fulfilledEvents results).foldl mapSetById
          ([] : List (String × GaroonEvent))).find? (fun pr => pr.1 == k) :=
      find_congr_pred _ _ _ (fun pr hpr => by rw [hwf pr hpr])
    rw [hpred, find_eq_foldl_mapSetById k (fulfilledEvents results) []]
    cases hrev : (fulfilledEvents results).reverse.find? (fun x => x.id == k) with
    | some x => rfl
    | none => rfl

/-! ## C10: the orphan pass works on the pre-filter id set -/

/-- One orphan-pass step leaves a still-fetched record and its destination
event untouched, provided the processed record does not alias its ids. -/
theorem deleteRemovedStep_preserves (now : String) (ids : List String) (w : World)
    (x r : SyncedEventInfo)
    (hne : r.garoonEventId ≠ "") (hin : ids.contains r.garoonEventId = true)
    (hx : x = r ∨ (x.garoonEventId ≠ r.garoonEventId ∧ x.googleEventId ≠ r.googleEventId))
    (hr : r ∈ w.db.events) :
    r ∈ (deleteRemovedStep now ids w x).db.events ∧
    (deleteRemovedStep now ids w x).cal.events.find? (fun p => p.1 == r.googleEventId) =
      w.cal.events.find? (fun p => p.1 == r.googleEventId) := by
  rcases hx with rfl | ⟨hg, hgoog⟩
  · unfold deleteRemovedStep
    rw [if_neg (by simp [hne]), if_pos hin]
    exact ⟨hr, rfl⟩
  · unfold deleteRemovedStep
    cases hx0 : x.garoonEventId == "" with
    | true =>
      rw [if_pos rfl]
      exact ⟨mem_eraseP_of_not hr (beq_eq_false_iff_ne.mpr (Ne.symm hgoog)), rfl⟩
    | false =>
      rw [if_neg Bool.false_ne_true]
      by_cases hc : ids.contains x.garoonEventId = true
      · rw [if_pos hc]
        exact ⟨hr, rfl⟩
      · rw [if_neg hc, deleteEventClient_eq]
        by_cases hany : w.cal.events.any (fun p => p.1 == x.googleEventId) = true
        · rw [if_pos hany]
          refine ⟨?_, ?_⟩
          · show r ∈ w.db.events.eraseP (fun q => q.garoonEventId == x.garoonEventId)
            exact mem_eraseP_of_not hr (beq_eq_false_iff_ne.mpr (Ne.symm hg))
          · show (w.cal.events.filter (fun p => !(p.1 == x.googleEventId))).find?
                (fun p => p.1 == r.googleEventId) = _
            refine find?_filter_of_imp _ _ (fun a ha => ?_) _
            rw [eq_of_beq ha]
            simp [beq_eq_false_iff_ne.mpr (Ne.symm hgoog)]
        · rw [if_neg hany]
          refine ⟨?_, ?_⟩
          · show r ∈ w.db.events.eraseP (fun q => q.garoonEventId == x.garoonEventId)
            exact mem_eraseP_of_not hr (beq_eq_false_iff_ne.mpr (Ne.symm hg))
          · rfl

/-- The whole orphan pass preserves still-fetched records and their
destination events, record by record. -/
theorem deleteRemoved_fold_preserves (now : String) (ids : List String) (r : SyncedEventInfo)
    (hne : r.garoonEventId ≠ "") (hin : ids.contains r.garoonEventId = true) :
    ∀ (s : List SyncedEventInfo) (w : World),
      (∀ x ∈ s, x = r ∨ (x.garoonEventId ≠ r.garoonEventId ∧ x.googleEventId ≠ r.googleEventId)) →
      r ∈ w.db.events →
      r ∈ (s.foldl (deleteRemovedStep now ids) w).db.events ∧
      (s.foldl (deleteRemovedStep now ids) w).cal.events.find?
          (fun p => p.1 == r.googleEventId) =
        w.cal.events.find? (fun p => p.1 == r.googleEventId)
  | [], _, _, hr => ⟨hr, rfl⟩
  | x :: xs, w, hall, hr => by
    rw [List.foldl_cons]
    obtain ⟨h1, h2⟩ := deleteRemovedStep_preserves now ids w x r hne hin
      (hall x (List.mem_cons_self _ _)) hr
    obtain ⟨g1, g2⟩ := deleteRemoved_fold_preserves now ids r hne hin xs
      (deleteRemovedStep now ids w x) (fun y hy => hall y (List.mem_cons_of_mem _ hy)) h1
    exact ⟨g1, by rw [g2, h2]⟩

/-- C10: the id set handed to the orphan pass is computed from ALL fetched
events, before the exclude-private filter (first conjunct, definitional
unfolding of `syncEvents`); consequently a record whose source event is
still fetched — even when it is excluded from syncing as private — is
never treated as an orphan: the pass leaves its record in the store and
its destination event untouched (second conjunct). -/
theorem orphan_pass_uses_prefilter_ids :
    (∀ (cfg : SyncConfig) (now cutoff : String) (events : List GaroonEvent) (w : World),
      syncEvents cfg now cutoff events w =
        { deleteRemovedEvents now (events.map (fun e => e.id))
            (runEventPhase cfg now { w with stats := ⟨0, 0, 0, 0⟩, destDeleteCalls := 0 }
              (filteredEvents cfg events)) with
          db := cleanupOldSyncInfo
            (deleteRemovedEvents now (events.map (fun e => e.id))
              (runEventPhase cfg now { w with stats := ⟨0, 0, 0, 0⟩, destDeleteCalls := 0 }
                (filteredEvents cfg events))).db cutoff }) ∧
    (∀ (now : String) (ids : List String) (w : World) (r : SyncedEventInfo),
      (w.db.events.map (fun q => q.garoonEventId)).Nodup →
      (w.db.events.map (fun q => q.googleEventId)).Nodup →
      r ∈ w.db.events → r.garoonEventId ≠ "" → ids.contains r.garoonEventId = true →
      r ∈ (deleteRemovedEvents now ids w).db.events ∧
      (deleteRemovedEvents now ids w).cal.events.find? (fun p => p.1 == r.googleEventId) =
        w.cal.events.find? (fun p => p.1 == r.googleEventId)) := by
  refine ⟨fun cfg now cutoff events w => rfl, fun now ids w r hg hgoog hr hne hin => ?_⟩
  have hall : ∀ x ∈ w.db.events,
      x = r ∨ (x.garoonEventId ≠ r.garoonEventId ∧ x.googleEventId ≠ r.googleEventId) := by
    intro x hxmem
    by_cases hxr : x = r
    · exact Or.inl hxr
    · refine Or.inr ⟨fun hcontra => hxr ?_, fun hcontra => hxr ?_⟩
      · exact List.inj_on_of_nodup_map hg hxmem hr hcontra
      · exact List.inj_on_of_nodup_map hgoog hxmem hr hcontra
  exact deleteRemoved_fold_preserves now ids r hne hin w.db.events w hall hr

/-- Witness for C10: the still-fetched (but possibly private-excluded)
record `e2` survives the orphan pass and its destination event is
untouched. -/
theorem orphan_pass_uses_prefilter_ids_witness :
    (⟨"e2", "g1", "2024-01-06T00:00:00Z", "2024-01-05T00:00:00Z"⟩ : SyncedEventInfo) ∈
      (deleteRemovedEvents "t1" ["e2"] recordedWorld).db.events ∧
    (deleteRemovedEvents "t1" ["e2"] recordedWorld).cal.events.find?
        (fun p => p.1 == "g1") =
      recordedWorld.cal.events.find? (fun p => p.1 == "g1") := by
  exact orphan_pass_uses_prefilter_ids.2 "t1" ["e2"] recordedWorld
    ⟨"e2", "g1", "2024-01-06T00:00:00Z", "2024-01-05T00:00:00Z"⟩
    (by decide) (by decide) (by decide) (by decide) (by decide)

/-! ## C1: helper lemmas for the two-run analysis -/

/-- An upsert leaves lookups at other keys untouched. -/
theorem find?_upsertEvents_other (r : SyncedEventInfo) (g : String)
    (hg : (r.garoonEventId == g) = false) :
    ∀ l, (upsertEvents r l).find? (fun x => x.garoonEventId == g) =
      l.find? (fun x => x.garoonEventId == g)
  | [] => by simp [upsertEvents, List.find?_cons, hg]
  | x :: xs => by
    cases hx : x.garoonEventId == r.garoonEventId with
    | true =>
      have hx1 : (x.garoonEventId == g) = false := by
        rw [eq_of_beq hx]
        exact hg
      simp [upsertEvents, hx, List.find?_cons, hg, hx1]
    | false =>
      cases hxg : x.garoonEventId == g <;>
        simp [upsertEvents, hx, List.find?_cons, hxg, find?_upsertEvents_other r g hg xs]

/-- Membership after an upsert: the new record or an old one. -/
theorem mem_upsertEvents (x r : SyncedEventInfo) :
    ∀ l, x ∈ upsertEvents r l → x = r ∨ x ∈ l
  | [], h => by
    rw [upsertEvents] at h
    rcases List.mem_cons.mp h with rfl | h2
    · exact Or.inl rfl
    · exact absurd h2 (List.not_mem_nil x)
  | y :: ys, h => by
    rw [upsertEvents] at h
    cases hy : y.garoonEventId == r.garoonEventId with
    | true =>
      rw [if_pos hy] at h
      rcases List.mem_cons.mp h with rfl | h2
      · exact Or.inl rfl
      · exact Or.inr (List.mem_cons_of_mem _ h2)
    | false =>
      rw [if_neg (by rw [hy]; exact Bool.false_ne_true)] at h
      rcases List.mem_cons.mp h with rfl | h2
      · exact Or.inr (List.mem_cons_self _ _)
      · rcases mem_upsertEvents x r ys h2 with h3 | h3
        · exact Or.inl h3
        · exact Or.inr (List.mem_cons_of_mem _ h3)

/-- Store lookups only depend on the record list. -/
theorem getSyncInfo_eq_of_events (db1 db2 : SyncData) (g : String)
    (h : db1.events = db2.events) : getSyncInfo db1 g = getSyncInfo db2 g := by
  unfold getSyncInfo
  rw [h]

/-- Membership gives a true `contains` check. -/
theorem contains_of_mem {a : String} : ∀ {l : List String}, a ∈ l → l.contains a = true
  | [], h => absurd h (List.not_mem_nil a)
  | b :: bs, h => by
    rcases List.mem_cons.mp h with rfl | h2
    · simp [List.contains_cons]
    · simp [List.contains_cons, contains_of_mem h2]
      exact Or.inr h2

/-- Create path on a translation failure. -/
theorem createGoogleEvent_conv_error (cfg : SyncConfig) (now : String) (w : World)
    (e : GaroonEvent) (msg : String) (hconv : convertToGoogleEvent cfg e = Except.error msg) :
    createGoogleEvent cfg now w e =
      Except.error ("イベント作成エラー (" ++ e.id ++ "): " ++ msg) := by
  unfold createGoogleEvent
  rw [hconv]

/-- Update path when the destination read-back reports absent. -/
theorem updateGoogleEvent_eq_absent (cfg : SyncConfig) (now : String) (w : World)
    (e : GaroonEvent) (googleEventId : String)
    (hget : getEventClient w.cal googleEventId = none) :
    updateGoogleEvent cfg now w e googleEventId =
      wrapError ("イベント更新エラー (" ++ e.id ++ "): ") (createGoogleEvent cfg now w e) := by
  unfold updateGoogleEvent
  rw [hget]

/-- Behaviour of the retried destination update: success in one call when
the id is present, a wrapped non-retryable not-found failure otherwise. -/
theorem updateEventClient_eq (cal : GoogleCalendar) (eventId : String) (ev : GoogleEvent) :
    updateEventClient cal eventId ev =
      if cal.events.any (fun p => p.1 == eventId) then
        (Except.ok { cal with
          events := cal.events.map (fun p => if p.1 == eventId then (eventId, ev) else p) }, 1)
      else
        (Except.error ("イベントの更新に失敗しました: " ++ googleNotFoundMessage), 1) := by
  by_cases h : cal.events.any (fun p => p.1 == eventId)
  · have happi : apiUpdateEvent cal eventId ev = Except.ok { cal with
        events := cal.events.map (fun p => if p.1 == eventId then (eventId, ev) else p) } := by
      unfold apiUpdateEvent
      rw [if_pos h]
    rw [if_pos h]
    simp [updateEventClient, withRetry, retryLoop, wrapError, happi]
  · have happi : apiUpdateEvent cal eventId ev = Except.error googleNotFoundMessage := by
      unfold apiUpdateEvent
      rw [if_neg h]
    rw [if_neg h]
    simp [updateEventClient, withRetry, retryLoop, wrapError, happi,
      (by decide : isRetryableError ("イベントの更新に失敗しました: " ++ googleNotFoundMessage) = false)]

/-- Update path when the destination read-back succeeds and the event
translates: everything now hinges on the destination update call. -/
theorem updateGoogleEvent_present_eq (cfg : SyncConfig) (now : String) (w : World)
    (e : GaroonEvent) (googleEventId : String) (gev0 gev : GoogleEvent)
    (hget : getEventClient w.cal googleEventId = some gev0)
    (hconv : convertToGoogleEvent cfg e = Except.ok gev) :
    updateGoogleEvent cfg now w e googleEventId =
      match updateEventClient w.cal googleEventId { gev with id := some googleEventId } with
      | (.ok cal, _) =>
        Except.ok { w with
          cal := cal
          db := logSync (saveSyncInfo w.db e.id googleEventId e.updatedAt now) now "UPDATE"
            (some e.id) (some googleEventId) none
          stats := { w.stats with updated := w.stats.updated + 1 } }
      | (.error msg, _) => Except.error ("イベント更新エラー (" ++ e.id ++ "): " ++ msg) := by
  unfold updateGoogleEvent
  rw [hget, hconv]

/-- Update path when the read-back succeeds but translation fails. -/
theorem updateGoogleEvent_present_converr (cfg : SyncConfig) (now : String) (w : World)
    (e : GaroonEvent) (googleEventId : String) (gev0 : GoogleEvent) (msg : String)
    (hget : getEventClient w.cal googleEventId = some gev0)
    (hconv : convertToGoogleEvent cfg e = Except.error msg) :
    updateGoogleEvent cfg now w e googleEventId =
      Except.error ("イベント更新エラー (" ++ e.id ++ "): " ++ msg) := by
  unfold updateGoogleEvent
  rw [hget, hconv]

/-- Shape of every successful per-event pipeline: the store changes at
most by an upsert at the event's own id, the store afterwards holds a
record for the event carrying its current source timestamp (written this
run, or the untouched pre-existing one), and the error counter is
untouched. -/
theorem syncEvent_ok_spec (cfg : SyncConfig) (now : String) (w : World) (e : GaroonEvent)
    (w2 : World) (h : syncEvent cfg now w e = Except.ok w2) :
    (w2.db.events = w.db.events ∨
      ∃ ge, w2.db.events = upsertEvents ⟨e.id, ge, now, e.updatedAt⟩ w.db.events) ∧
    (∃ rec, getSyncInfo w2.db e.id = some rec ∧ rec.garoonUpdatedAt = e.updatedAt ∧
      (rec.lastSynced = now ∨ getSyncInfo w.db e.id = some rec)) ∧
    w2.stats.errors = w.stats.errors := by
  unfold syncEvent at h
  cases hinfo : getSyncInfo w.db e.id with
  | none =>
    rw [hinfo] at h
    replace h : createGoogleEvent cfg now w e = Except.ok w2 := h
    cases hconv : convertToGoogleEvent cfg e with
    | error msg =>
      rw [createGoogleEvent_conv_error cfg now w e msg hconv] at h
      exact Except.noConfusion h
    | ok gev =>
      rw [createGoogleEvent_ok cfg now w e gev hconv] at h
      have h2 := Except.ok.inj h
      subst h2
      refine ⟨Or.inr ⟨(apiInsertEvent w.cal gev).1, rfl⟩,
        ⟨⟨e.id, (apiInsertEvent w.cal gev).1, now, e.updatedAt⟩, ?_, rfl, Or.inl rfl⟩, rfl⟩
      rw [getSyncInfo_logSync]
      exact getSyncInfo_saveSyncInfo_self w.db e.id (apiInsertEvent w.cal gev).1 e.updatedAt now
  | some info =>
    rw [hinfo] at h
    replace h :
        (if (info.garoonUpdatedAt != e.updatedAt) = true
          then updateGoogleEvent cfg now w e info.googleEventId
          else Except.ok { w with db := logSync w.db now "UNCHANGED" (some e.id) (some info.googleEventId) none })
          = Except.ok w2 := h
    cases hbeq : info.garoonUpdatedAt == e.updatedAt with
    | true =>
      have hbne : (info.garoonUpdatedAt != e.updatedAt) = false := by
        simp [bne, hbeq]
      rw [hbne, if_neg Bool.false_ne_true] at h
      have h2 := Except.ok.inj h
      subst h2
      refine ⟨Or.inl rfl, ⟨info, ?_, eq_of_beq hbeq, Or.inr rfl⟩, rfl⟩
      rw [getSyncInfo_logSync]
      exact hinfo
    | false =>
      have hbne : (info.garoonUpdatedAt != e.updatedAt) = true := by
        simp [bne, hbeq]
      rw [hbne, if_pos rfl] at h
      cases hget : getEventClient w.cal info.googleEventId with
      | none =>
        rw [updateGoogleEvent_eq_absent cfg now w e info.googleEventId hget] at h
        cases hconv : convertToGoogleEvent cfg e with
        | error msg =>
          rw [createGoogleEvent_conv_error cfg now w e msg hconv] at h
          simp [wrapError] at h
        | ok gev =>
          rw [createGoogleEvent_ok cfg now w e gev hconv] at h
          have h2 := Except.ok.inj h
          subst h2
          refine ⟨Or.inr ⟨(apiInsertEvent w.cal gev).1, rfl⟩,
            ⟨⟨e.id, (apiInsertEvent w.cal gev).1, now, e.updatedAt⟩, ?_, rfl, Or.inl rfl⟩, rfl⟩
          rw [getSyncInfo_logSync]
          exact getSyncInfo_saveSyncInfo_self w.db e.id (apiInsertEvent w.cal gev).1
            e.updatedAt now
      | some gev0 =>
        cases hconv : convertToGoogleEvent cfg e with
        | error msg =>
          rw [updateGoogleEvent_present_converr cfg now w e info.googleEventId gev0 msg
            hget hconv] at h
          exact Except.noConfusion h
        | ok gev =>
          rw [updateGoogleEvent_present_eq cfg now w e info.googleEventId gev0 gev
            hget hconv, updateEventClient_eq] at h
          by_cases hany : w.cal.events.any (fun p => p.1 == info.googleEventId) = true
          · rw [if_pos hany] at h
            have h2 := Except.ok.inj h
            subst h2
            refine ⟨Or.inr ⟨info.googleEventId, rfl⟩,
              ⟨⟨e.id, info.googleEventId, now, e.updatedAt⟩, ?_, rfl, Or.inl rfl⟩, rfl⟩
            rw [getSyncInfo_logSync]
            exact getSyncInfo_saveSyncInfo_self w.db e.id info.googleEventId e.updatedAt now
          · rw [if_neg hany] at h
            simp at h

/-- Per-event error boundary: either the step succeeded with the
`syncEvent_ok_spec` shape, or the error counter strictly increased while
the store was untouched. -/
theorem processEvent_spec (cfg : SyncConfig) (now : String) (w : World) (e : GaroonEvent) :
    ((processEvent cfg now w e).db.events = w.db.events ∨
      ∃ ge, (processEvent cfg now w e).db.events =
        upsertEvents ⟨e.id, ge, now, e.updatedAt⟩ w.db.events) ∧
    ((processEvent cfg now w e).stats.errors = w.stats.errors →
      ∃ rec, getSyncInfo (processEvent cfg now w e).db e.id = some rec ∧
        rec.garoonUpdatedAt = e.updatedAt ∧
        (rec.lastSynced = now ∨ getSyncInfo w.db e.id = some rec)) ∧
    w.stats.errors ≤ (processEvent cfg now w e).stats.errors := by
  cases hs : syncEvent cfg now w e with
  | ok w2 =>
    have heq : processEvent cfg now w e = w2 := by
      unfold processEvent
      rw [hs]
    obtain ⟨ha, hb, hc⟩ := syncEvent_ok_spec cfg now w e w2 hs
    rw [heq]
    exact ⟨ha, fun _ => hb, le_of_eq hc.symm⟩
  | error msg =>
    have heq : processEvent cfg now w e = { w with
        stats := { w.stats with errors := w.stats.errors + 1 },
        db := logSync w.db now "ERROR" (some e.id) none (some msg) } := by
      unfold processEvent
      rw [hs]
    rw [heq]
    refine ⟨Or.inl rfl, fun hcontra => ?_, by simp⟩
    simp at hcontra

/-- Lookups at ids other than the processed event's are untouched. -/
theorem processEvent_frame (cfg : SyncConfig) (now : String) (w : World) (e : GaroonEvent)
    (g : String) (hne : e.id ≠ g) :
    getSyncInfo (processEvent cfg now w e).db g = getSyncInfo w.db g := by
  rcases (processEvent_spec cfg now w e).1 with hev | ⟨ge, hev⟩
  · exact getSyncInfo_eq_of_events _ _ g hev
  · unfold getSyncInfo
    rw [hev]
    exact find?_upsertEvents_other ⟨e.id, ge, now, e.updatedAt⟩ g
      (beq_eq_false_iff_ne.mpr hne) w.db.events

/-- The error counter never decreases across the batch loop. -/
theorem runEventPhase_errors_le (cfg : SyncConfig) (now : String) :
    ∀ (l : List GaroonEvent) (w : World),
      w.stats.errors ≤ (runEventPhase cfg now w l).stats.errors
  | [], _ => le_refl _
  | e :: es, w =>
    le_trans (processEvent_spec cfg now w e).2.2
      (runEventPhase_errors_le cfg now es (processEvent cfg now w e))

/-- Lookups at ids no event of the batch carries are untouched. -/
theorem runEventPhase_frame (cfg : SyncConfig) (now : String) (g : String) :
    ∀ (l : List GaroonEvent) (w : World), (∀ e ∈ l, e.id ≠ g) →
      getSyncInfo (runEventPhase cfg now w l).db g = getSyncInfo w.db g
  | [], _, _ => rfl
  | e :: es, w, h => by
    have hrest : getSyncInfo (runEventPhase cfg now (processEvent cfg now w e) es).db g =
        getSyncInfo (processEvent cfg now w e).db g :=
      runEventPhase_frame cfg now g es (processEvent cfg now w e)
        (fun y hy => h y (List.mem_cons_of_mem _ hy))
    exact hrest.trans (processEvent_frame cfg now w e g (h e (List.mem_cons_self _ _)))

/-- When the batch loop finishes with no new errors and the batch ids are
pairwise distinct, every batched event ends with a store record carrying
its current source timestamp. -/
theorem runEventPhase_noop_ready (cfg : SyncConfig) (now : String) :
    ∀ (l : List GaroonEvent) (w : World),
      (l.map (fun e => e.id)).Nodup →
      (runEventPhase cfg now w l).stats.errors = w.stats.errors →
      ∀ e ∈ l, ∃ rec, getSyncInfo (runEventPhase cfg now w l).db e.id = some rec ∧
        rec.garoonUpdatedAt = e.updatedAt ∧
        (rec.lastSynced = now ∨ getSyncInfo w.db e.id = some rec)
  | [], _, _, _, e, he => absurd he (List.not_mem_nil e)
  | x :: xs, w, hnodup, herr, e, he => by
    rw [List.map_cons, List.nodup_cons] at hnodup
    obtain ⟨hxid, hxs⟩ := hnodup
    have hmid := (processEvent_spec cfg now w x).2.2
    have hrest := runEventPhase_errors_le cfg now xs (processEvent cfg now w x)
    have herr2 : (runEventPhase cfg now (processEvent cfg now w x) xs).stats.errors =
        w.stats.errors := herr
    have hpe : (processEvent cfg now w x).stats.errors = w.stats.errors := by omega
    rcases List.mem_cons.mp he with rfl | hmem
    · obtain ⟨rec, hrec, hupd, hdisj⟩ := (processEvent_spec cfg now w e).2.1 hpe
      refine ⟨rec, ?_, hupd, hdisj⟩
      have hframe : getSyncInfo (runEventPhase cfg now (processEvent cfg now w e) xs).db e.id =
          getSyncInfo (processEvent cfg now w e).db e.id :=
        runEventPhase_frame cfg now e.id xs (processEvent cfg now w e)
          (fun y hy hcontra => hxid (hcontra ▸ List.mem_map_of_mem (fun e2 => e2.id) hy))
      exact hframe.trans hrec
    · have herr3 : (runEventPhase cfg now (processEvent cfg now w x) xs).stats.errors =
          (processEvent cfg now w x).stats.errors := by omega
      obtain ⟨rec, hrec, hupd, hdisj⟩ :=
        runEventPhase_noop_ready cfg now xs (processEvent cfg now w x) hxs herr3 e hmem
      refine ⟨rec, hrec, hupd, ?_⟩
      rcases hdisj with h1 | h1
      · exact Or.inl h1
      · refine Or.inr ?_
        have hne : x.id ≠ e.id := fun hcontra =>
          hxid (hcontra ▸ List.mem_map_of_mem (fun e2 => e2.id) hmem)
        rw [← processEvent_frame cfg now w x e.id hne]
        exact h1

/-- Every record after the batch loop is either an untouched pre-existing
record or was written this run for one of the batched events. -/
theorem runEventPhase_records (cfg : SyncConfig) (now : String) :
    ∀ (l : List GaroonEvent) (w : World) (x : SyncedEventInfo),
      x ∈ (runEventPhase cfg now w l).db.events →
      x ∈ w.db.events ∨ (x.lastSynced = now ∧ x.garoonEventId ∈ l.map (fun e => e.id))
  | [], _, _, hx => Or.inl hx
  | e :: es, w, x, hx => by
    rcases runEventPhase_records cfg now es (processEvent cfg now w e) x hx with h1 | ⟨h1, h2⟩
    · rcases (processEvent_spec cfg now w e).1 with hev | ⟨ge, hev⟩
      · rw [hev] at h1
        exact Or.inl h1
      · rw [hev] at h1
        rcases mem_upsertEvents x _ w.db.events h1 with rfl | h3
        · refine Or.inr ⟨rfl, ?_⟩
          rw [List.map_cons]
          exact List.mem_cons_self _ _
        · exact Or.inl h3
    · refine Or.inr ⟨h1, ?_⟩
      rw [List.map_cons]
      exact List.mem_cons_of_mem _ h2

/-- A batch whose every event already has an up-to-date record only
appends UNCHANGED log entries: records, counters, destination calendar and
delete-call count are untouched. -/
theorem runEventPhase_unchanged (cfg : SyncConfig) (now : String) :
    ∀ (l : List GaroonEvent) (w : World),
      (∀ e ∈ l, ∃ rec, getSyncInfo w.db e.id = some rec ∧ rec.garoonUpdatedAt = e.updatedAt) →
      (runEventPhase cfg now w l).db.events = w.db.events ∧
      (runEventPhase cfg now w l).stats = w.stats ∧
      (runEventPhase cfg now w l).cal = w.cal ∧
      (runEventPhase cfg now w l).destDeleteCalls = w.destDeleteCalls
  | [], _, _ => ⟨rfl, rfl, rfl, rfl⟩
  | e :: es, w, h => by
    obtain ⟨rec, hrec, hupd⟩ := h e (List.mem_cons_self _ _)
    have hbne : (rec.garoonUpdatedAt != e.updatedAt) = false := by
      simp [bne, hupd]
    have hsync : syncEvent cfg now w e = Except.ok { w with
        db := logSync w.db now "UNCHANGED" (some e.id) (some rec.googleEventId) none } := by
      unfold syncEvent
      rw [hrec]
      show (if (rec.garoonUpdatedAt != e.updatedAt) = true
        then updateGoogleEvent cfg now w e rec.googleEventId
        else Except.ok { w with db := logSync w.db now "UNCHANGED" (some e.id) (some rec.googleEventId) none }) = _
      rw [hbne, if_neg Bool.false_ne_true]
    have hstep : processEvent cfg now w e = { w with
        db := logSync w.db now "UNCHANGED" (some e.id) (some rec.googleEventId) none } := by
      unfold processEvent
      rw [hsync]
    have hh : ∀ e2 ∈ es, ∃ rec2, getSyncInfo (processEvent cfg now w e).db e2.id = some rec2 ∧
        rec2.garoonUpdatedAt = e2.updatedAt := by
      intro e2 he2
      obtain ⟨rec2, hrec2, hupd2⟩ := h e2 (List.mem_cons_of_mem _ he2)
      refine ⟨rec2, ?_, hupd2⟩
      rw [hstep, getSyncInfo_logSync]
      exact hrec2
    obtain ⟨h1, h2, h3, h4⟩ := runEventPhase_unchanged cfg now es (processEvent cfg now w e) hh
    have hev : (processEvent cfg now w e).db.events = w.db.events := by
      rw [hstep]
      rfl
    have hst : (processEvent cfg now w e).stats = w.stats := by rw [hstep]
    have hca : (processEvent cfg now w e).cal = w.cal := by rw [hstep]
    have hdc : (processEvent cfg now w e).destDeleteCalls = w.destDeleteCalls := by rw [hstep]
    exact ⟨h1.trans hev, h2.trans hst, h3.trans hca, h4.trans hdc⟩

/-- The orphan pass never records errors (in this destination model a
delete failure is always the not-found case, which is tolerated). -/
theorem deleteRemovedStep_errors_eq (now : String) (ids : List String) (w : World)
    (x : SyncedEventInfo) :
    (deleteRemovedStep now ids w x).stats.errors = w.stats.errors := by
  unfold deleteRemovedStep
  by_cases h0 : (x.garoonEventId == "") = true
  · rw [if_pos h0]
  · rw [if_neg h0]
    by_cases hc : ids.contains x.garoonEventId = true
    · rw [if_pos hc]
    · rw [if_neg hc, deleteEventClient_eq]
      by_cases hany : w.cal.events.any (fun p => p.1 == x.googleEventId) = true
      · rw [if_pos hany]
      · rw [if_neg hany]
        rfl

/-- The orphan pass leaves the error counter unchanged. -/
theorem deleteRemoved_fold_errors (now : String) (ids : List String) :
    ∀ (s : List SyncedEventInfo) (w : World),
      (s.foldl (deleteRemovedStep now ids) w).stats.errors = w.stats.errors
  | [], _ => rfl
  | x :: xs, w =>
    (deleteRemoved_fold_errors now ids xs (deleteRemovedStep now ids w x)).trans
      (deleteRemovedStep_errors_eq now ids w x)

/-- With no corrupt records in the snapshot, the orphan pass keeps exactly
the records whose source id is still fetched. -/
theorem deleteRemoved_fold_filter (now : String) (ids : List String) :
    ∀ (s done : List SyncedEventInfo) (w : World),
      w.db.events = done ++ s →
      (∀ x ∈ done, ids.contains x.garoonEventId = true) →
      (∀ x ∈ s, x.garoonEventId ≠ "") →
      (s.foldl (deleteRemovedStep now ids) w).db.events =
        done ++ s.filter (fun x => ids.contains x.garoonEventId)
  | [], done, w, hw, _, _ => by
    rw [List.foldl_nil, hw, List.filter_nil, List.append_nil]
  | x :: xs, done, w, hw, hdone, hcl => by
    rw [List.foldl_cons]
    by_cases hc : ids.contains x.garoonEventId = true
    · have hstep : deleteRemovedStep now ids w x = w := by
        unfold deleteRemovedStep
        rw [if_neg (by simp [hcl x (List.mem_cons_self _ _)]), if_pos hc]
      rw [hstep]
      have hrec := deleteRemoved_fold_filter now ids xs (done ++ [x]) w
        (by rw [hw, List.append_assoc, List.singleton_append])
        (fun y hy => by
          rcases List.mem_append.mp hy with h1 | h1
          · exact hdone y h1
          · rw [List.mem_singleton.mp h1]
            exact hc)
        (fun y hy => hcl y (List.mem_cons_of_mem _ hy))
      rw [hrec, List.filter_cons, if_pos hc, List.append_assoc, List.singleton_append]
    · have hcf : ids.contains x.garoonEventId = false := by
        revert hc
        cases ids.contains x.garoonEventId <;> simp
      obtain ⟨_, hev, _, _⟩ := orphanStep_delete_eq now ids w x
        (hcl x (List.mem_cons_self _ _)) hcf
      have hnone : ∀ b ∈ done, ¬ ((fun q => q.garoonEventId == x.garoonEventId) b = true) := by
        intro b hb hpb
        have hb2 := hdone b hb
        rw [eq_of_beq hpb, hcf] at hb2
        exact Bool.noConfusion hb2
      have herase : w.db.events.eraseP (fun q => q.garoonEventId == x.garoonEventId) =
          done ++ xs := by
        rw [hw, List.eraseP_append_right _ hnone]
        simp [List.eraseP_cons]
      have hrec := deleteRemoved_fold_filter now ids xs done (deleteRemovedStep now ids w x)
        (by rw [hev, herase]) hdone (fun y hy => hcl y (List.mem_cons_of_mem _ hy))
      rw [hrec, List.filter_cons, if_neg (by rw [hcf]; exact Bool.false_ne_true)]

/-- A snapshot whose every record is still fetched makes the orphan pass a
no-op. -/
theorem deleteRemoved_fold_id (now : String) (ids : List String) :
    ∀ (s : List SyncedEventInfo) (w : World),
      (∀ x ∈ s, x.garoonEventId ≠ "" ∧ ids.contains x.garoonEventId = true) →
      s.foldl (deleteRemovedStep now ids) w = w
  | [], _, _ => rfl
  | x :: xs, w, h => by
    have hstep : deleteRemovedStep now ids w x = w := by
      unfold deleteRemovedStep
      rw [if_neg (by simp [(h x (List.mem_cons_self _ _)).1]),
        if_pos (h x (List.mem_cons_self _ _)).2]
    rw [List.foldl_cons, hstep]
    exact deleteRemoved_fold_id now ids xs w (fun y hy => h y (List.mem_cons_of_mem _ hy))

/-- C1 (amended): if every fetched event has a nonempty id, no two fetched
events share an id, the store holds no corrupt (empty-id) records, no
stored record or run-1 write is older than run 1's retention cutoff, and
run 1 syncs every event successfully (`errors = 0`), then the immediately
following run with the identical event list performs no destination
create, update or delete: its counters are all zero, it makes no
destination delete call, the destination calendar is untouched, every
event it processes finds a record whose stored timestamp equals the
event's `updatedAt` (classified NO-OP), and the orphan set is empty (every
persisted record's source id is in the fetched id set). -/
theorem syncEvents_second_run_noop (cfg : SyncConfig) (now1 cutoff1 now2 cutoff2 : String)
    (events : List GaroonEvent) (w : World)
    (hids : ∀ e ∈ events, e.id ≠ "")
    (hnodup : (events.map (fun e => e.id)).Nodup)
    (hdb : ∀ r ∈ w.db.events, r.garoonEventId ≠ "")
    (hfresh : ∀ r ∈ w.db.events, strLt r.lastSynced cutoff1 = false)
    (hnow : strLt now1 cutoff1 = false)
    (herr : (syncEvents cfg now1 cutoff1 events w).stats.errors = 0) :
    (syncEvents cfg now2 cutoff2 events (syncEvents cfg now1 cutoff1 events w)).stats.added = 0 ∧
    (syncEvents cfg now2 cutoff2 events (syncEvents cfg now1 cutoff1 events w)).stats.updated = 0 ∧
    (syncEvents cfg now2 cutoff2 events (syncEvents cfg now1 cutoff1 events w)).stats.deleted = 0 ∧
    (syncEvents cfg now2 cutoff2 events (syncEvents cfg now1 cutoff1 events w)).destDeleteCalls = 0 ∧
    (syncEvents cfg now2 cutoff2 events (syncEvents cfg now1 cutoff1 events w)).cal =
      (syncEvents cfg now1 cutoff1 events w).cal ∧
    (∀ e ∈ filteredEvents cfg events, ∃ rec,
      getSyncInfo (syncEvents cfg now1 cutoff1 events w).db e.id = some rec ∧
      rec.garoonUpdatedAt = e.updatedAt) ∧
    (∀ r ∈ (syncEvents cfg now1 cutoff1 events w).db.events,
      (events.map (fun e => e.id)).contains r.garoonEventId = true) := by
  set run1 := syncEvents cfg now1 cutoff1 events w with hrun1_def
  set ids : List String := events.map (fun e => e.id) with hidsdef
  set filtered : List GaroonEvent := filteredEvents cfg events with hfil
  set wr : World := { w with stats := ⟨0, 0, 0, 0⟩, destDeleteCalls := 0 } with hwr
  set wA : World := runEventPhase cfg now1 wr filtered with hwA
  set wB : World := deleteRemovedEvents now1 ids wA with hwB
  have hrun1eq : run1 = { wB with db := cleanupOldSyncInfo wB.db cutoff1 } := hrun1_def
  have herr1 : wB.stats.errors = 0 := by
    rw [hrun1eq] at herr
    exact herr
  have hBA : wB.stats.errors = wA.stats.errors :=
    deleteRemoved_fold_errors now1 ids wA.db.events wA
  have herrPh : wA.stats.errors = wr.stats.errors := (hBA.symm.trans herr1).trans rfl
  have hnodupF : (filtered.map (fun e => e.id)).Nodup :=
    List.Nodup.sublist (List.Sublist.map _ (List.filter_sublist _)) hnodup
  have hidsF : ∀ e ∈ filtered, e.id ≠ "" := fun e he => hids e (List.mem_of_mem_filter he)
  have hmemidsF : ∀ e ∈ filtered, ids.contains e.id = true := fun e he =>
    contains_of_mem (List.mem_map_of_mem (fun e2 => e2.id) (List.mem_of_mem_filter he))
  have hnoopA : ∀ e ∈ filtered, ∃ rec, getSyncInfo wA.db e.id = some rec ∧
      rec.garoonUpdatedAt = e.updatedAt ∧
      (rec.lastSynced = now1 ∨ getSyncInfo w.db e.id = some rec) :=
    fun e he => runEventPhase_noop_ready cfg now1 filtered wr hnodupF herrPh e he
  have hrecsA : ∀ x ∈ wA.db.events,
      x ∈ w.db.events ∨ (x.lastSynced = now1 ∧ x.garoonEventId ∈ filtered.map (fun e => e.id)) :=
    fun x hx => runEventPhase_records cfg now1 filtered wr x hx
  have hAne : ∀ x ∈ wA.db.events, x.garoonEventId ≠ "" := by
    intro x hx
    rcases hrecsA x hx with h1 | ⟨_, h2⟩
    · exact hdb x h1
    · obtain ⟨e, he, heq⟩ := List.mem_map.mp h2
      rw [← heq]
      exact hidsF e he
  have hOev : wB.db.events = wA.db.events.filter (fun x => ids.contains x.garoonEventId) :=
    deleteRemoved_fold_filter now1 ids wA.db.events [] wA (List.nil_append _).symm
      (fun x hx => absurd hx (List.not_mem_nil x)) hAne
  have hkeep : ∀ x ∈ wB.db.events, (!(strLt x.lastSynced cutoff1)) = true := by
    intro x hx
    rw [hOev] at hx
    rcases hrecsA x (List.mem_of_mem_filter hx) with h1 | ⟨h1, _⟩
    · simp [hfresh x h1]
    · rw [h1]
      simp [hnow]
  have hr1ev : run1.db.events = wB.db.events := by
    rw [hrun1eq]
    show (cleanupOldSyncInfo wB.db cutoff1).events = wB.db.events
    unfold cleanupOldSyncInfo
    exact List.filter_eq_self.mpr hkeep
  have hG1 : ∀ e ∈ filtered, ∃ rec, getSyncInfo run1.db e.id = some rec ∧
      rec.garoonUpdatedAt = e.updatedAt := by
    intro e he
    obtain ⟨rec, hrec, hupd, _⟩ := hnoopA e he
    refine ⟨rec, ?_, hupd⟩
    have hev : run1.db.events = wA.db.events.filter (fun x => ids.contains x.garoonEventId) :=
      hr1ev.trans hOev
    unfold getSyncInfo
    rw [hev, find?_filter_of_imp _ _ (fun a ha => by rw [eq_of_beq ha]; exact hmemidsF e he)]
    exact hrec
  have hG2 : ∀ r ∈ run1.db.events, ids.contains r.garoonEventId = true := by
    intro r hr
    rw [hr1ev, hOev] at hr
    exact (List.mem_filter.mp hr).2
  have hG2ne : ∀ r ∈ run1.db.events, r.garoonEventId ≠ "" := by
    intro r hr
    rw [hr1ev, hOev] at hr
    exact hAne r (List.mem_of_mem_filter hr)
  set run2 := syncEvents cfg now2 cutoff2 events run1 with hrun2_def
  set wr2 : World := { run1 with stats := ⟨0, 0, 0, 0⟩, destDeleteCalls := 0 } with hwr2
  set wA2 : World := runEventPhase cfg now2 wr2 filtered with hwA2
  have hrun2eq : run2 = { deleteRemovedEvents now2 ids wA2 with
      db := cleanupOldSyncInfo (deleteRemovedEvents now2 ids wA2).db cutoff2 } := hrun2_def
  obtain ⟨hA2ev, hA2st, hA2cal, hA2del⟩ := runEventPhase_unchanged cfg now2 filtered wr2
    (fun e he => hG1 e he)
  have hO2 : deleteRemovedEvents now2 ids wA2 = wA2 := by
    refine deleteRemoved_fold_id now2 ids wA2.db.events wA2 ?_
    intro x hx
    rw [hA2ev] at hx
    exact ⟨hG2ne x hx, hG2 x hx⟩
  have hstats : run2.stats = ⟨0, 0, 0, 0⟩ := by
    rw [hrun2eq, hO2]
    exact hA2st
  have hdelcalls : run2.destDeleteCalls = 0 := by
    rw [hrun2eq, hO2]
    exact hA2del
  have hcal2 : run2.cal = run1.cal := by
    rw [hrun2eq, hO2]
    exact hA2cal
  refine ⟨?_, ?_, ?_, hdelcalls, hcal2, hG1, hG2⟩
  · rw [hstats]
  · rw [hstats]
  · rw [hstats]

/-- Witness for C1's amended claim: a concrete well-formed event synced
twice from the empty state; the second run's counters and destination
delete calls are all zero. -/
theorem syncEvents_second_run_noop_witness :
    (syncEvents witnessConfig "2024-06-01T00:10:00.000Z" "2024-03-03T00:10:00.000Z"
      [sampleTimedEvent]
      (syncEvents witnessConfig "2024-06-01T00:00:00.000Z" "2024-03-03T00:00:00.000Z"
        [sampleTimedEvent] emptyWorld)).stats.added = 0 ∧
    (syncEvents witnessConfig "2024-06-01T00:10:00.000Z" "2024-03-03T00:10:00.000Z"
      [sampleTimedEvent]
      (syncEvents witnessConfig "2024-06-01T00:00:00.000Z" "2024-03-03T00:00:00.000Z"
        [sampleTimedEvent] emptyWorld)).stats.updated = 0 ∧
    (syncEvents witnessConfig "2024-06-01T00:10:00.000Z" "2024-03-03T00:10:00.000Z"
      [sampleTimedEvent]
      (syncEvents witnessConfig "2024-06-01T00:00:00.000Z" "2024-03-03T00:00:00.000Z"
        [sampleTimedEvent] emptyWorld)).stats.deleted = 0 ∧
    (syncEvents witnessConfig "2024-06-01T00:10:00.000Z" "2024-03-03T00:10:00.000Z"
      [sampleTimedEvent]
      (syncEvents witnessConfig "2024-06-01T00:00:00.000Z" "2024-03-03T00:00:00.000Z"
        [sampleTimedEvent] emptyWorld)).destDeleteCalls = 0 := by
  obtain ⟨h1, h2, h3, h4, _, _, _⟩ := syncEvents_second_run_noop witnessConfig
    "2024-06-01T00:00:00.000Z" "2024-03-03T00:00:00.000Z"
    "2024-06-01T00:10:00.000Z" "2024-03-03T00:10:00.000Z"
    [sampleTimedEvent] emptyWorld
    (by decide) (by decide) (by decide) (by decide) (by decide) (by decide)
  exact ⟨h1, h2, h3, h4⟩

end CalSync
